import Mathlib

/-
Verification development for the AI-TODO streaming-chat subsystem.

The repository's streaming chat lives in two near-duplicate React components:
`src/components/StreamChat.tsx` (component `StreamChat`) and the `StreamAIChat`
component found in `src/unnamed/part_000`.  Both consume a Server-Sent-Events
stream produced by `src/pages/api/samples/stream.ts` (resp. an analogous chat
endpoint) and smooth the bursty chunk arrivals into a fixed-rate character
reveal driven by a 30 ms interval timer.

This file gives a shallow embedding of that logic:

  * `StreamChat.*`  — the state machine of `StreamChat.tsx`: the mutable refs
    (`streamingBufferRef`, `streamingTimerRef`, `currentMessageIdRef`,
    `hasReceivedChunkRef`, `abortControllerRef`) and the React state
    (`messages`, `input`, `isStreaming`, `error`) are collected into one
    record `ChatState`; each `setMessages`/ref mutation site of the source
    becomes a total function on `ChatState`.  JS strings are modelled as
    `List Char`; message ids (opaque tokens from `Date.now().toString()`)
    as `Nat`.
  * `AIChat.*` — the same for the `StreamAIChat` component, which differs in
    the points that matter for the claims: it tracks `displayedLengthRef`,
    its `start` handler does not overwrite the message content, and its
    `done`-case `waitForBuffer` has no poll ceiling.
  * `Json`, `jsonParse` — an executable model of the `JSON.parse` calls in the
    SSE record loop (fuel-based, hence kernel-computable), plus the
    `data: `-line dispatch of the source's `switch (data.type)`.
  * `streamHandler` — the record sequence written by the backend handler in
    `src/pages/api/samples/stream.ts`.

All definitions are translated from the source; theorems about the frozen
claims C1–C10 follow at the end of the file.
-/

/-- The `setMessages(prev => { const updated = [...prev]; const lastMsg =
updated[updated.length - 1]; ... })` pattern shared by both components: apply
`f` to the last element of the list, keep the rest (`lastMsg` is mutated in
place in the copied array). -/
def updateLast {α : Type} (f : α → α) : List α → List α
  | [] => []
  | [m] => [f m]
  | m :: rest => m :: updateLast f rest

namespace StreamChat

/-- `Message.role` in `StreamChat.tsx`: `'user' | 'assistant'`. -/
inductive Role where
  | user
  | assistant
deriving DecidableEq, Repr

/-- The `Message` interface of `StreamChat.tsx` (lines 3–9).  `references` is
`undefined` on user messages and a number on assistant messages; `isStreaming`
is optional in TS, with `undefined` acting as `false`. -/
structure Message where
  id : Nat
  role : Role
  content : List Char
  isStreaming : Bool
  references : Option Nat
deriving DecidableEq, Repr

/-- The whole mutable state of the `StreamChat` component: React state
(`messages`, `input`, `isStreaming`, `error`) plus the refs
(`streamingBufferRef`, `streamingTimerRef` as a Boolean "interval alive",
`currentMessageIdRef`, `hasReceivedChunkRef`, `abortControllerRef` as a
Boolean "controller present"). -/
structure ChatState where
  messages : List Message
  input : List Char
  isStreaming : Bool
  error : Option (List Char)
  buffer : List Char
  timerOn : Bool
  currentMessageId : Option Nat
  hasReceivedChunk : Bool
  abortActive : Bool
deriving DecidableEq, Repr

/-- `lastMsg.content = data.message || ''` / `lastMsg.content = ''` guarded by
`lastMsg.role === 'assistant'` (start case, lines 245–254; first-chunk reset,
lines 266–273). -/
def setContentF (h : List Char) (m : Message) : Message :=
  if m.role = Role.assistant then { m with content := h } else m

/-- `lastMsg.isStreaming = false` guarded by `lastMsg.role === 'assistant'`
(done success path, error case, cancel, catch). -/
def stopStreamF (m : Message) : Message :=
  if m.role = Role.assistant then { m with isStreaming := false } else m

/-- The timer callback's message update (lines 62–85): append the popped
character when the last message matches `currentMessageIdRef` and is an
assistant message, and recompute `isStreaming` from the (already popped)
buffer and the id ref. -/
def drainF (mid : Nat) (c : Char) (streamFlag : Bool) (m : Message) : Message :=
  if m.id = mid ∧ m.role = Role.assistant then
    { m with content := m.content ++ [c], isStreaming := streamFlag }
  else m

/-- The done-case flush (lines 323–337 and the two `waitForBuffer` flush
branches): append the whole remaining buffer when the last message's id equals
`currentMessageIdRef.current` and it is an assistant message, and mark it not
streaming. -/
def flushF (mid : Option Nat) (pending : List Char) (m : Message) : Message :=
  if mid = some m.id ∧ m.role = Role.assistant then
    { m with content := m.content ++ pending, isStreaming := false }
  else m

/-- One firing of the 30 ms interval callback (`StreamChat.tsx` lines 54–104;
the identical re-declarations at lines 189–214 and 285–310 have the same
effect).  If the buffer is non-empty and an active message id is set, pop one
character and append it to the matching last assistant message; otherwise, if
the id is cleared and the buffer empty, the interval clears itself. -/
def tick (s : ChatState) : ChatState :=
  match s.currentMessageId, s.buffer with
  | some mid, c :: rest =>
    { s with
      buffer := rest,
      messages :=
        updateLast (drainF mid c (decide (rest ≠ []) || s.currentMessageId.isSome))
          s.messages }
  | _, _ =>
    if s.currentMessageId = none ∧ s.buffer = [] then { s with timerOn := false } else s

/-- `n` consecutive timer firings. -/
def ticksN : Nat → ChatState → ChatState
  | 0, s => s
  | n + 1, s => ticksN n (tick s)

/-- The `case 'start'` handler (lines 240–255): reset `hasReceivedChunkRef`,
clear the pending buffer, and set the last assistant message's content to
`data.message || ''` (the transient hint). -/
def handleStart (msg : Option (List Char)) (s : ChatState) : ChatState :=
  { s with
    hasReceivedChunk := false,
    buffer := [],
    messages := updateLast (setContentF (msg.getD [])) s.messages }

/-- The `case 'chunk'` handler (lines 257–317).  `if (data.content)` skips
falsy (absent or empty) content.  On the first chunk of the turn the handler
resets the flag, clears the buffer, empties the last assistant message's
content (dropping the start hint) and (re)starts the interval exactly when
`currentMessageIdRef.current` is set.  In every case the content is then
appended to the pending buffer — with no `activeMessageId` guard. -/
def handleChunk (c : List Char) (s : ChatState) : ChatState :=
  if c.isEmpty then s
  else
    let s1 :=
      if s.hasReceivedChunk then s
      else
        { s with
          hasReceivedChunk := true,
          buffer := [],
          messages := updateLast (setContentF []) s.messages,
          timerOn := s.currentMessageId.isSome }
    { s1 with buffer := s1.buffer ++ c }

/-- The flush-and-finish writes shared by the done-case immediate branch
(lines 323–337) and the two `waitForBuffer` bail-out branches (stalled buffer,
lines 350–370; poll ceiling, lines 373–393): move the whole buffer into the
matching last assistant message, mark everything finished, stop the timer. -/
def flushFinish (s : ChatState) : ChatState :=
  { s with
    buffer := [],
    messages := updateLast (flushF s.currentMessageId s.buffer) s.messages,
    isStreaming := false,
    currentMessageId := none,
    timerOn := false }

/-- The `waitForBuffer` success branch (lines 401–419): the buffer drained
normally, so only mark the last assistant message (and the component) as not
streaming and stop the timer. -/
def successFinish (s : ChatState) : ChatState :=
  { s with
    messages := updateLast stopStreamF s.messages,
    isStreaming := false,
    currentMessageId := none,
    timerOn := false }

/-- One poll of `waitForBuffer` classified (lines 344–400): `checkAt` is the
value of `checkCount` after the `checkCount++` of this poll, `lastLen` the
`lastBufferLength` captured by the previous poll.  Returns `some` final state
when this poll finishes the turn (buffer empty, stalled-buffer bail-out, or
the 100-poll ceiling), `none` when it re-schedules itself. -/
def pollClassify (checkAt lastLen : Nat) (s : ChatState) : Option ChatState :=
  if s.buffer.length = 0 then some (successFinish s)
  else if s.buffer.length = lastLen ∧ 5 < checkAt then some (flushFinish s)
  else if 100 ≤ checkAt then some (flushFinish s)
  else none

/-- A single stale invocation of the `waitForBuffer` callback (as queued by
`setTimeout`): act according to `pollClassify`, or leave the state unchanged
when the poll merely re-schedules. -/
def pollOnce (checkCount lastLen : Nat) (s : ChatState) : ChatState :=
  match pollClassify (checkCount + 1) lastLen s with
  | some r => r
  | none => s

/-- The `waitForBuffer` polling loop of the done case (lines 340–421).  The
`fuel` argument is the structural bound `100 - checkCount` maintained by the
caller (the recursion stops at the 100-poll ceiling, so fuel 100 from
`checkCount = 0` never runs out); `sched` gives the number of timer firings
between this poll and the next (the 30 ms interval runs independently of the
100 ms `setTimeout` chain).  Returns the final state and the number of polls
performed. -/
def waitForBuffer : Nat → Nat → Nat → List Nat → ChatState → ChatState × Nat
  | 0, checkCount, lastLen, _, s =>
    (match pollClassify (checkCount + 1) lastLen s with
     | some r => r
     | none => s, checkCount + 1)
  | fuel + 1, checkCount, lastLen, sched, s =>
    match pollClassify (checkCount + 1) lastLen s with
    | some r => (r, checkCount + 1)
    | none =>
      waitForBuffer fuel (checkCount + 1) s.buffer.length sched.tail
        (ticksN (sched.headD 0) s)

/-- The `case 'done'` handler (lines 319–423): if the timer is not running
while content is still buffered for an active message, append it all at once;
otherwise start the `waitForBuffer` polling chain with `checkCount = 0` and
`lastBufferLength` = current buffer length. -/
def handleDone (sched : List Nat) (s : ChatState) : ChatState :=
  if s.timerOn = false ∧ s.buffer ≠ [] ∧ s.currentMessageId.isSome then flushFinish s
  else (waitForBuffer 100 0 s.buffer.length sched s).1

/-- `data.error || '未知错误'` (line 426). -/
def defaultErrText : List Char := "未知错误".toList

/-- The `case 'error'` handler (lines 425–443): record the error text, stop
streaming, discard the buffer, stop the timer, mark the last assistant message
not streaming and clear the active id. -/
def handleError (e : Option (List Char)) (s : ChatState) : ChatState :=
  { s with
    error := some (if (e.getD []).isEmpty then defaultErrText else e.getD []),
    isStreaming := false,
    buffer := [],
    hasReceivedChunk := false,
    timerOn := false,
    messages := updateLast stopStreamF s.messages,
    currentMessageId := none }

/-- `handleCancel` (lines 563–583): only acts when an `AbortController` is in
flight; aborts it, stops streaming, discards the buffer, stops the timer,
marks the last assistant message not streaming and clears the active id. -/
def handleCancel (s : ChatState) : ChatState :=
  if s.abortActive then
    { s with
      isStreaming := false,
      buffer := [],
      hasReceivedChunk := false,
      timerOn := false,
      messages := updateLast stopStreamF s.messages,
      currentMessageId := none,
      abortActive := false }
  else s

/-- `' '`, tab, LF, CR — the whitespace stripped by `input.trim()` (the model
covers the ASCII whitespace actually typed into the chat box). -/
def isWsChar (c : Char) : Bool :=
  c = ' ' || c = '\t' || c = '\n' || c = '\r'

/-- Model of `input.trim()`. -/
def trimL (l : List Char) : List Char :=
  ((l.dropWhile isWsChar).reverse.dropWhile isWsChar).reverse

/-- The synchronous prefix of `handleSend` (lines 124–153): the entry guard
`if (!input.trim() || isStreaming) return`, then append the trimmed user
message and the empty streaming assistant placeholder, clear the input, set
`isStreaming`, clear the error and create the `AbortController`.  `uid`/`aid`
stand for the two `Date.now()`-derived ids, `refs` for the random
`references` count. -/
def handleSendEntry (uid aid refs : Nat) (s : ChatState) : ChatState :=
  if (trimL s.input).isEmpty || s.isStreaming then s
  else
    { s with
      messages := s.messages ++
        [ { id := uid, role := Role.user, content := trimL s.input,
            isStreaming := false, references := none },
          { id := aid, role := Role.assistant, content := [],
            isStreaming := true, references := some refs } ],
      input := [],
      isStreaming := true,
      error := none,
      abortActive := true }

/-- The post-fetch stream setup (lines 176–215): set `currentMessageIdRef` to
the assistant placeholder's id, clear the buffer and the first-chunk flag, and
make sure the interval timer is running. -/
def streamSetup (aid : Nat) (s : ChatState) : ChatState :=
  { s with
    currentMessageId := some aid,
    buffer := [],
    hasReceivedChunk := false,
    timerOn := true }

/-- The `catch` branch for `AbortError` (lines 541–542): only a log, no state
change. -/
def abortCatch (s : ChatState) : ChatState := s

/-- An interleaving step inside a turn: either the interval timer fires or a
`chunk` event is dispatched. -/
inductive Act where
  | tick
  | chunk (c : List Char)
deriving DecidableEq, Repr

/-- Run a turn interleaving. -/
def runActs : List Act → ChatState → ChatState
  | [], s => s
  | Act.tick :: r, s => runActs r (tick s)
  | Act.chunk c :: r, s => runActs r (handleChunk c s)

/-- The total content delivered by the `chunk` events of an interleaving. -/
def concatChunks : List Act → List Char
  | [] => []
  | Act.tick :: r => concatChunks r
  | Act.chunk c :: r => c ++ concatChunks r

/-- A step that can still fire after cancellation: a stale interval tick or a
stale `waitForBuffer` poll (with whatever counter values its closure holds). -/
inductive PAct where
  | ptick
  | ppoll (checkCount lastLen : Nat)
deriving DecidableEq, Repr

/-- Run a sequence of stale steps. -/
def runPost : List PAct → ChatState → ChatState
  | [], s => s
  | PAct.ptick :: r, s => runPost r (tick s)
  | PAct.ppoll cc ll :: r, s => runPost r (pollOnce cc ll s)

end StreamChat

/-! ## The wire format: `JSON.parse` / `JSON.stringify` model

The SSE record loop of both components parses each `data: `-prefixed record
with `JSON.parse` inside a `try`/`catch`; a parse failure is logged and
skipped.  `jsonParse` below is an executable model of `JSON.parse`: fuel-based
(the fuel only bounds nesting, and one character is consumed before every
recursive call, so `length + 1` fuel is always enough), hence computable by
the kernel on concrete records. -/

/-- A parsed JSON value.  Number lexemes are kept verbatim: the streaming code
never does arithmetic on them (`stats` objects are stored wholesale). -/
inductive Json where
  | null
  | bool (b : Bool)
  | num (lexeme : List Char)
  | str (s : List Char)
  | arr (elems : List Json)
  | obj (members : List (List Char × Json))
deriving Repr

/-- JSON inter-token whitespace. -/
def jsonWs (c : Char) : Bool :=
  c = ' ' || c = '\t' || c = '\n' || c = '\r'

/-- Skip inter-token whitespace. -/
def skipWsJ (cs : List Char) : List Char := cs.dropWhile jsonWs

/-- Value of one hex digit, `none` on a non-hex-digit. -/
def hexVal (c : Char) : Option Nat :=
  if '0' ≤ c ∧ c ≤ '9' then some (c.toNat - '0'.toNat)
  else if 'a' ≤ c ∧ c ≤ 'f' then some (c.toNat - 'a'.toNat + 10)
  else if 'A' ≤ c ∧ c ≤ 'F' then some (c.toNat - 'A'.toNat + 10)
  else none

/-- Body of a JSON string, positioned just after the opening quote; returns
the decoded characters and the remainder after the closing quote.  Escapes
follow RFC 8259; raw control characters are rejected, as `JSON.parse` does. -/
def parseStringBody : List Char → Option (List Char × List Char)
  | [] => none
  | '"' :: rest => some ([], rest)
  | '\\' :: '"' :: rest => (parseStringBody rest).map (fun p => ('"' :: p.1, p.2))
  | '\\' :: '\\' :: rest => (parseStringBody rest).map (fun p => ('\\' :: p.1, p.2))
  | '\\' :: '/' :: rest => (parseStringBody rest).map (fun p => ('/' :: p.1, p.2))
  | '\\' :: 'b' :: rest => (parseStringBody rest).map (fun p => (Char.ofNat 8 :: p.1, p.2))
  | '\\' :: 'f' :: rest => (parseStringBody rest).map (fun p => (Char.ofNat 12 :: p.1, p.2))
  | '\\' :: 'n' :: rest => (parseStringBody rest).map (fun p => ('\n' :: p.1, p.2))
  | '\\' :: 'r' :: rest => (parseStringBody rest).map (fun p => (Char.ofNat 13 :: p.1, p.2))
  | '\\' :: 't' :: rest => (parseStringBody rest).map (fun p => ('\t' :: p.1, p.2))
  | '\\' :: 'u' :: h1 :: h2 :: h3 :: h4 :: rest =>
    (match hexVal h1, hexVal h2, hexVal h3, hexVal h4 with
     | some a, some b, some c, some d =>
       (parseStringBody rest).map
         (fun p => (Char.ofNat (((a * 16 + b) * 16 + c) * 16 + d) :: p.1, p.2))
     | _, _, _, _ => none)
  | '\\' :: _ => none
  | c :: rest =>
    if c.toNat < 32 then none
    else (parseStringBody rest).map (fun p => (c :: p.1, p.2))

/-- Characters that can occur in a number lexeme. -/
def numChar (c : Char) : Bool :=
  c.isDigit || c = '.' || c = 'e' || c = 'E' || c = '+' || c = '-'

/-- Exponent digits, with an optional sign, consuming the whole rest. -/
def expDigits (l : List Char) : Bool :=
  let l1 := match l with
    | '+' :: t => t
    | '-' :: t => t
    | t => t
  decide (l1.takeWhile Char.isDigit ≠ []) && (l1.dropWhile Char.isDigit).isEmpty

/-- An optional exponent part closing a number lexeme. -/
def expTail : List Char → Bool
  | [] => true
  | 'e' :: r => expDigits r
  | 'E' :: r => expDigits r
  | _ => false

/-- Optional fraction then optional exponent closing a number lexeme. -/
def fracExpTail : List Char → Bool
  | '.' :: r =>
    decide (r.takeWhile Char.isDigit ≠ []) && expTail (r.dropWhile Char.isDigit)
  | r => expTail r

/-- Whole-lexeme validity of a JSON number. -/
def validNumber (l : List Char) : Bool :=
  let l1 := match l with
    | '-' :: t => t
    | t => t
  decide (l1.takeWhile Char.isDigit ≠ []) && fracExpTail (l1.dropWhile Char.isDigit)

mutual

/-- One JSON value; fuel bounds nesting depth. -/
def parseValue : Nat → List Char → Option (Json × List Char)
  | 0, _ => none
  | fuel + 1, cs =>
    match cs with
    | 'n' :: 'u' :: 'l' :: 'l' :: rest => some (Json.null, rest)
    | 't' :: 'r' :: 'u' :: 'e' :: rest => some (Json.bool true, rest)
    | 'f' :: 'a' :: 'l' :: 's' :: 'e' :: rest => some (Json.bool false, rest)
    | '"' :: rest => (parseStringBody rest).map (fun p => (Json.str p.1, p.2))
    | '\x7b' :: rest =>
      (match skipWsJ rest with
       | '\x7d' :: r2 => some (Json.obj [], r2)
       | r1 => (parseMembers fuel r1).map (fun p => (Json.obj p.1, p.2)))
    | '[' :: rest =>
      (match skipWsJ rest with
       | ']' :: r2 => some (Json.arr [], r2)
       | r1 => (parseElems fuel r1).map (fun p => (Json.arr p.1, p.2)))
    | _ =>
      let lex := cs.takeWhile numChar
      if decide (lex ≠ []) && validNumber lex then some (Json.num lex, cs.dropWhile numChar)
      else none

/-- One-or-more `"key": value` members and the closing brace. -/
def parseMembers : Nat → List Char → Option (List (List Char × Json) × List Char)
  | 0, _ => none
  | fuel + 1, cs =>
    match cs with
    | '"' :: rest =>
      (match parseStringBody rest with
       | some (key, r1) =>
         (match skipWsJ r1 with
          | ':' :: r2 =>
            (match parseValue fuel (skipWsJ r2) with
             | some (v, r3) =>
               (match skipWsJ r3 with
                | ',' :: r4 =>
                  (parseMembers fuel (skipWsJ r4)).map (fun p => ((key, v) :: p.1, p.2))
                | '\x7d' :: r4 => some ([(key, v)], r4)
                | _ => none)
             | none => none)
          | _ => none)
       | none => none)
    | _ => none

/-- One-or-more comma-separated array elements and the closing bracket. -/
def parseElems : Nat → List Char → Option (List Json × List Char)
  | 0, _ => none
  | fuel + 1, cs =>
    match parseValue fuel cs with
    | some (v, r1) =>
      (match skipWsJ r1 with
       | ',' :: r2 => (parseElems fuel (skipWsJ r2)).map (fun p => (v :: p.1, p.2))
       | ']' :: r2 => some ([v], r2)
       | _ => none)
    | none => none

end

/-- Model of `JSON.parse`: one value, whole input consumed, `none` on any
syntax error (the `catch` path of the record loop). -/
def jsonParse (cs : List Char) : Option Json :=
  match parseValue (cs.length + 1) (skipWsJ cs) with
  | some (v, rest) => if (skipWsJ rest).isEmpty then some v else none
  | none => none

/-- JS property read `obj[k]` on a parsed object; duplicate keys resolve to
the last occurrence, as in `JSON.parse`. -/
def objGet (j : Json) (k : List Char) : Option Json :=
  match j with
  | Json.obj fs => ((fs.filter (fun p => p.1 = k)).getLast?).map (fun p => p.2)
  | _ => none

/-- A field read that the client only uses when it is a string (`data.message`,
`data.content`, `data.error`). -/
def strField (j : Json) (k : List Char) : Option (List Char) :=
  match objGet j k with
  | some (Json.str s) => some s
  | _ => none

/-- `data.type === t` for a string tag (a non-string `type` matches no
`switch` case). -/
def typeIs (j : Json) (t : List Char) : Bool :=
  match objGet j ("type".toList) with
  | some (Json.str u) => u = t
  | _ => false

/-- `'data: '` — the SSE record marker. -/
def dataPre : List Char := "data: ".toList

namespace StreamChat

/-- The `switch (data.type)` dispatch of the SSE record loop (`StreamChat.tsx`
lines 239–444).  `sched` threads the timer schedule consumed by a `done`
record's wait loop.  A record whose `type` matches no case (or is not a
string) falls through the `switch` with no effect.  (A non-string truthy
`data.content` would be string-coerced by JS; the model covers the string and
absent cases, which are the ones the wire format produces.) -/
def dispatchEvent (sched : List Nat) (j : Json) (s : ChatState) : ChatState :=
  if typeIs j ("start".toList) then handleStart (strField j ("message".toList)) s
  else if typeIs j ("chunk".toList) then handleChunk ((strField j ("content".toList)).getD []) s
  else if typeIs j ("done".toList) then handleDone sched s
  else if typeIs j ("error".toList) then handleError (strField j ("error".toList)) s
  else s

/-- Processing of one split-off SSE record (lines 231–449): only lines
starting with `'data: '` are considered; the payload after the marker goes
through `JSON.parse` inside `try`/`catch` — a parse failure is logged and the
loop continues with the state unchanged. -/
def processLine (sched : List Nat) (line : List Char) (s : ChatState) : ChatState :=
  if dataPre.isPrefixOf line then
    match jsonParse (line.drop 6) with
    | some j => dispatchEvent sched j s
    | none => s
  else s

/-- The `for (const line of lines)` loop over complete records. -/
def processLines (sched : List Nat) (lines : List (List Char)) (s : ChatState) : ChatState :=
  lines.foldl (fun st l => processLine sched l st) s

end StreamChat

/-! ## The backend: `src/pages/api/samples/stream.ts` -/

/-- One hex digit as `JSON.stringify` prints it (lower case). -/
def hexDigit (n : Nat) : Char :=
  if n < 10 then Char.ofNat (48 + n) else Char.ofNat (87 + n)

/-- `JSON.stringify` escaping of one string character. -/
def jsonEscapeChar (c : Char) : List Char :=
  if c = '"' then ['\\', '"']
  else if c = '\\' then ['\\', '\\']
  else if c = Char.ofNat 8 then ['\\', 'b']
  else if c = '\t' then ['\\', 't']
  else if c = '\n' then ['\\', 'n']
  else if c = Char.ofNat 12 then ['\\', 'f']
  else if c = Char.ofNat 13 then ['\\', 'r']
  else if c.toNat < 32 then
    ['\\', 'u', '0', '0', hexDigit (c.toNat / 16), hexDigit (c.toNat % 16)]
  else [c]

/-- `JSON.stringify` escaping of a whole string body. -/
def jsonEscape : List Char → List Char
  | [] => []
  | c :: rest => jsonEscapeChar c ++ jsonEscape rest

/-- A `JSON.stringify`-serialized string. -/
def quoteStr (s : List Char) : List Char := '"' :: (jsonEscape s ++ ['"'])

/-- One `"key":"value"` pair as `JSON.stringify` prints it. -/
def strPair (k v : List Char) : List Char := quoteStr k ++ ':' :: quoteStr v

/-- `JSON.stringify` of a two-field object literal with string values, in
insertion order (`type` first), without any whitespace. -/
def strObj2 (k1 v1 k2 v2 : List Char) : List Char :=
  '\x7b' :: (strPair k1 v1 ++ ',' :: strPair k2 v2) ++ ['\x7d']

/-- `JSON.stringify({ type: 'start', message: '开始生成...' })` (line 78). -/
def startPayload : List Char :=
  strObj2 ("type".toList) ("start".toList) ("message".toList) ("开始生成...".toList)

/-- `JSON.stringify({ type: 'chunk', content })` (line 87). -/
def chunkPayload (d : List Char) : List Char :=
  strObj2 ("type".toList) ("chunk".toList) ("content".toList) d

/-- `JSON.stringify({ type: 'done', message: '生成完成' })` (line 92). -/
def donePayload : List Char :=
  strObj2 ("type".toList) ("done".toList) ("message".toList) ("生成完成".toList)

/-- One `res.write` call: `` `data: ${json}\n\n` ``. -/
def sseRecord (payload : List Char) : List Char :=
  dataPre ++ payload ++ ['\n', '\n']

/-- The provider-stream loop (lines 81–89): `const content =
chunk.choices[0]?.delta?.content || ''; if (content) res.write(...)` — one
chunk record per non-empty delta, in order. -/
def chunkWrites : List (List Char) → List (List Char)
  | [] => []
  | d :: rest =>
    if d.isEmpty then chunkWrites rest
    else sseRecord (chunkPayload d) :: chunkWrites rest

/-- The whole success-path write sequence of the handler (lines 78–93): the
start record, the chunk records, the done record. -/
def streamHandler (deltas : List (List Char)) : List (List Char) :=
  sseRecord startPayload :: (chunkWrites deltas ++ [sseRecord donePayload])

/-! ## The `StreamAIChat` component (`src/unnamed/part_000`, lines 1167–1683)

Same architecture as `StreamChat`, with the differences that matter here:
`displayedLengthRef` (a dedup counter incremented exactly when a character is
actually appended), a `start` handler that keeps the message content and only
stores `stats`, a chunk handler with no first-chunk content reset, and a
`done`-case `waitForBuffer` that polls with no ceiling. -/

namespace AIChat

open StreamChat (Role)

/-- The `Message` interface of `StreamAIChat` (part_000 lines 1169–1182);
`stats` is stored as the parsed JSON object, wholesale. -/
structure Message where
  id : Nat
  role : Role
  content : List Char
  isStreaming : Bool
  stats : Option Json
deriving Repr

/-- The mutable state of `StreamAIChat`: React state plus
`streamingBufferRef`, `streamingTimerRef`, `currentMessageIdRef`,
`displayedLengthRef`, `abortControllerRef`. -/
structure State where
  messages : List Message
  input : List Char
  isStreaming : Bool
  error : Option (List Char)
  buffer : List Char
  timerOn : Bool
  currentMessageId : Option Nat
  displayedLength : Nat
  abortActive : Bool
deriving Repr

/-- The timer callback's message update (part_000 lines 1243–1256): when the
last message matches the active id, append the popped character only if the
content length equals `displayedLengthRef` (the dedup guard), and always
recompute `isStreaming`.  Returns the updated message and whether the
character was appended (which advances `displayedLengthRef`). -/
def drainA (mid : Nat) (c : Char) (streamFlag : Bool) (dl : Nat) (m : Message) :
    Message × Bool :=
  if m.id = mid ∧ m.role = Role.assistant then
    (if m.content.length = dl then
      ({ m with content := m.content ++ [c], isStreaming := streamFlag }, true)
     else ({ m with isStreaming := streamFlag }, false))
  else (m, false)

/-- One firing of the 30 ms interval callback of `StreamAIChat` (part_000
lines 1233–1268 and its re-declarations): pop one character when the buffer
is non-empty and an id is active; self-clear when the id is gone and the
buffer empty. -/
def tick (s : State) : State :=
  match s.currentMessageId, s.buffer with
  | some mid, c :: rest =>
    let flag := decide (rest ≠ []) || s.currentMessageId.isSome
    (match s.messages.getLast? with
     | some m =>
       let r := drainA mid c flag s.displayedLength m
       { s with
         buffer := rest,
         messages := updateLast (fun _ => r.1) s.messages,
         displayedLength := if r.2 then s.displayedLength + 1 else s.displayedLength }
     | none => { s with buffer := rest })
  | _, _ =>
    if s.currentMessageId = none ∧ s.buffer = [] then { s with timerOn := false } else s

/-- The `case 'start'` handler of `StreamAIChat` (lines 1420–1465): clear the
buffer, reset `displayedLengthRef`, keep the existing content and only store
`stats` when present; make sure the timer is running. -/
def handleStart (stats : Option Json) (s : State) : State :=
  { s with
    buffer := [],
    displayedLength := 0,
    messages := updateLast (fun m =>
      if m.role = Role.assistant then
        (match stats with
         | some st => { m with stats := some st }
         | none => m)
      else m) s.messages,
    timerOn := s.timerOn || s.currentMessageId.isSome }

/-- The `case 'chunk'` handler of `StreamAIChat` (lines 1467–1510): append
the content to the buffer (no id guard, no content reset) and make sure the
timer is running. -/
def handleChunk (c : List Char) (s : State) : State :=
  if c.isEmpty then s
  else { s with buffer := s.buffer ++ c, timerOn := s.timerOn || s.currentMessageId.isSome }

/-- The `done`-case stats write (lines 1516–1526). -/
def statsUpdate (stats : Option Json) (s : State) : State :=
  match stats with
  | some st =>
    { s with
      messages := updateLast (fun m =>
        if m.role = Role.assistant then { m with stats := some st } else m) s.messages }
  | none => s

/-- The finalization writes of the `done`-case `waitForBuffer` success branch
(lines 1533–1548). -/
def finishTurn (s : State) : State :=
  { s with
    messages := updateLast (fun m =>
      if m.role = Role.assistant then { m with isStreaming := false } else m) s.messages,
    isStreaming := false,
    currentMessageId := none,
    displayedLength := 0,
    timerOn := false }

/-- One poll of the `StreamAIChat` `waitForBuffer` (lines 1528–1549): if the
buffer is non-empty it only re-schedules itself (`setTimeout(waitForBuffer,
100)`) — there is no check counter and no ceiling; otherwise it finalizes. -/
def waitPoll (s : State) : State :=
  if s.buffer.isEmpty then finishTurn s else s

/-- The `case 'error'` handler (lines 1553–1573). -/
def handleError (e : Option (List Char)) (s : State) : State :=
  { s with
    error := some (if (e.getD []).isEmpty then StreamChat.defaultErrText else e.getD []),
    isStreaming := false,
    buffer := [],
    displayedLength := 0,
    timerOn := false,
    messages := updateLast (fun m =>
      if m.role = Role.assistant then { m with isStreaming := false } else m) s.messages,
    currentMessageId := none }

/-- `handleCancel` of `StreamAIChat` (lines 1653–1683). -/
def handleCancel (s : State) : State :=
  if s.abortActive then
    { s with
      isStreaming := false,
      buffer := [],
      displayedLength := 0,
      timerOn := false,
      messages := updateLast (fun m =>
        if m.role = Role.assistant then { m with isStreaming := false } else m) s.messages,
      currentMessageId := none,
      abortActive := false }
  else s

/-- The synchronous prefix of `StreamAIChat.handleSend` (lines 1285–1312):
the same entry guard, then the trimmed user message and the empty streaming
assistant placeholder. -/
def handleSendEntry (uid aid : Nat) (s : State) : State :=
  if (StreamChat.trimL s.input).isEmpty || s.isStreaming then s
  else
    { s with
      messages := s.messages ++
        [ { id := uid, role := Role.user, content := StreamChat.trimL s.input,
            isStreaming := false, stats := none },
          { id := aid, role := Role.assistant, content := [],
            isStreaming := true, stats := none } ],
      input := [],
      isStreaming := true,
      error := none,
      abortActive := true }

/-- The post-fetch stream setup of `StreamAIChat` (lines 1343–1391): active
id, empty buffer, `displayedLengthRef = 0`, timer running. -/
def streamSetup (aid : Nat) (s : State) : State :=
  { s with
    currentMessageId := some aid,
    buffer := [],
    displayedLength := 0,
    timerOn := true }

/-- Run a turn interleaving of timer ticks and chunk events. -/
def runActs : List StreamChat.Act → State → State
  | [], s => s
  | StreamChat.Act.tick :: r, s => runActs r (tick s)
  | StreamChat.Act.chunk c :: r, s => runActs r (handleChunk c s)

end AIChat

/-! ## Predicates and base states used by the theorems -/

namespace StreamChat

/-- The invariant of one `StreamChat` turn, after the `start` event, for an
active assistant message `aid` and total chunk content `sofar` so far: the
active id and timer are set, the last message is the streaming assistant
placeholder, and either no (non-empty) chunk has been seen yet (content is
still the start hint, buffer empty) or the content plus the pending buffer is
exactly the delivered chunk content. -/
def TurnInv (aid : Nat) (sofar : List Char) (s : ChatState) : Prop :=
  s.currentMessageId = some aid ∧ s.timerOn = true ∧
  ∃ m, s.messages.getLast? = some m ∧ m.id = aid ∧ m.role = Role.assistant ∧
    m.isStreaming = true ∧
    ((s.hasReceivedChunk = false ∧ s.buffer = [] ∧ sofar = []) ∨
     (s.hasReceivedChunk = true ∧ m.content ++ s.buffer = sofar))

/-- The frame property of one transcript mutation: the message list keeps its
length and every message other than the last is untouched. -/
def framePre (s s' : ChatState) : Prop :=
  s'.messages.length = s.messages.length ∧
  ∀ i, i + 1 < s.messages.length → s'.messages[i]? = s.messages[i]?

/-- An empty, idle component state (fresh mount). -/
def initState : ChatState :=
  { messages := [], input := [], isStreaming := false, error := none,
    buffer := [], timerOn := false, currentMessageId := none,
    hasReceivedChunk := false, abortActive := false }

end StreamChat

namespace AIChat

/-- The invariant of one `StreamAIChat` turn for active assistant message
`aid` and delivered chunk content `sofar`: the last message is the streaming
assistant placeholder, `displayedLengthRef` equals its content length (the
content at turn start being empty), and content plus pending buffer is
exactly the delivered chunk content. -/
def TurnInvA (aid : Nat) (sofar : List Char) (s : State) : Prop :=
  s.currentMessageId = some aid ∧
  ∃ m, s.messages.getLast? = some m ∧ m.id = aid ∧ m.role = StreamChat.Role.assistant ∧
    m.isStreaming = true ∧ s.displayedLength = m.content.length ∧
    m.content ++ s.buffer = sofar

/-- An empty, idle `StreamAIChat` state (fresh mount). -/
def initStateA : State :=
  { messages := [], input := [], isStreaming := false, error := none,
    buffer := [], timerOn := false, currentMessageId := none,
    displayedLength := 0, abortActive := false }

end AIChat

/-! ## Concrete scenario states used as test inputs -/

namespace StreamChat

/-- A `StreamChat` turn just after `submit("hello")`, the fetch resolving and
the backend's `start` record (with its hint) being processed. -/
def turnStartEx : ChatState :=
  handleStart (some ("开始生成...".toList))
    (streamSetup 2 (handleSendEntry 1 2 7 { initState with input := "hello".toList }))

/-- `turnStartEx` after the chunk `"hello"` arrived and five timer ticks
drained it fully. -/
def midTurnEx : ChatState :=
  runActs [Act.chunk ("hello".toList), Act.tick, Act.tick, Act.tick, Act.tick, Act.tick]
    turnStartEx

/-- `midTurnEx` after the user cancelled. -/
def cancelledEx : ChatState := handleCancel midTurnEx

/-- `turnStartEx` after one 50-character chunk arrived and no tick ever fired
(a stalled drain timer). -/
def stalledEx : ChatState :=
  runActs [Act.chunk (List.replicate 50 'x')] turnStartEx

end StreamChat

namespace AIChat

/-- A `StreamAIChat` turn just after `submit("hi")`, the stream setup, and one
50-character chunk, with the drain timer (simulated as) stalled: no tick has
fired, so all 50 characters sit in the pending buffer. -/
def stalledExA : State :=
  handleChunk (List.replicate 50 'x')
    (streamSetup 2 (handleSendEntry 1 2 { initStateA with input := "hi".toList }))

end AIChat

/-! ## Helper lemmas about `updateLast` -/

theorem updateLast_length {α : Type} (f : α → α) :
    ∀ l : List α, (updateLast f l).length = l.length
  | [] => rfl
  | [_] => rfl
  | _ :: b :: rest => by
    simp only [updateLast, List.length_cons, updateLast_length f (b :: rest)]

theorem updateLast_get_frame {α : Type} (f : α → α) :
    ∀ (l : List α) (i : Nat), i + 1 < l.length → (updateLast f l)[i]? = l[i]?
  | [], _, h => by simp at h
  | [_], i, h => by simp at h
  | _ :: b :: rest, 0, _ => by simp [updateLast]
  | _ :: b :: rest, i + 1, h => by
    simp only [updateLast, List.getElem?_cons_succ]
    exact updateLast_get_frame f (b :: rest) i (by simpa using h)

theorem updateLast_getLast {α : Type} (f : α → α) :
    ∀ l : List α, (updateLast f l).getLast? = l.getLast?.map f
  | [] => rfl
  | [_] => rfl
  | a :: b :: rest => by
    have ih := updateLast_getLast f (b :: rest)
    cases rest with
    | nil => rfl
    | cons c rest' =>
      simp only [updateLast] at ih ⊢
      rw [List.getLast?_cons_cons, List.getLast?_cons_cons (b := b), ← ih]

theorem updateLast_append_one {α : Type} (f : α → α) (xs : List α) (a : α) :
    updateLast f (xs ++ [a]) = xs ++ [f a] := by
  induction xs with
  | nil => rfl
  | cons x xs ih =>
    cases xs with
    | nil => rfl
    | cons y ys => simpa [updateLast] using ih

theorem updateLast_comp {α : Type} (f g : α → α) :
    ∀ l : List α, updateLast f (updateLast g l) = updateLast (fun x => f (g x)) l
  | [] => rfl
  | [_] => rfl
  | a :: b :: rest => by
    have ih := updateLast_comp f g (b :: rest)
    cases rest with
    | nil => rfl
    | cons c rest' =>
      simp only [updateLast] at ih ⊢
      rw [ih]

theorem updateLast_eq_self {α : Type} (f : α → α) :
    ∀ l : List α, (∀ m, l.getLast? = some m → f m = m) → updateLast f l = l
  | [], _ => rfl
  | [a], h => by simp [updateLast, h a rfl]
  | a :: b :: rest, h => by
    have ih := updateLast_eq_self f (b :: rest)
      (fun m hm => h m (by rw [List.getLast?_cons_cons]; exact hm))
    simp only [updateLast, ih]

/-! ## C9 — the `handleSend` entry guard -/

/-- Claim C9: `handleSend` is a no-op under a failed precondition — whenever
the input text is empty or whitespace-only, or a stream is already in
progress, the synchronous submit prefix returns with the state (transcript,
error, streaming flag, everything) unchanged. -/
theorem c9_send_guard_noop (uid aid refs : Nat) (s : StreamChat.ChatState)
    (h : (StreamChat.trimL s.input).isEmpty = true ∨ s.isStreaming = true) :
    StreamChat.handleSendEntry uid aid refs s = s := by
  unfold StreamChat.handleSendEntry
  rcases h with h | h <;> simp [h]

/-- Witness for C9 at a whitespace-only input. -/
theorem c9_send_guard_noop_witness :
    ((StreamChat.trimL (StreamChat.ChatState.input
        { StreamChat.initState with input := "  ".toList })).isEmpty = true ∨
      (StreamChat.ChatState.isStreaming
        { StreamChat.initState with input := "  ".toList }) = true) ∧
    StreamChat.handleSendEntry 1 2 7 { StreamChat.initState with input := "  ".toList } =
      { StreamChat.initState with input := "  ".toList } :=
  ⟨Or.inl (by decide),
   c9_send_guard_noop 1 2 7 { StreamChat.initState with input := "  ".toList }
     (Or.inl (by decide))⟩

/-! ## C5 — a malformed record is swallowed -/

/-- Claim C5: a record with invalid JSON between two valid records is
swallowed by the `try`/`catch` of the SSE record loop: the loop is not
aborted and the surrounding records have exactly the same effect as if the
malformed record were absent. -/
theorem c5_bad_record_skipped (sched : List Nat) (s : StreamChat.ChatState)
    (good1 bad good2 : List Char)
    (hbad : dataPre.isPrefixOf bad = false ∨ jsonParse (bad.drop 6) = none) :
    StreamChat.processLines sched [good1, bad, good2] s =
      StreamChat.processLines sched [good1, good2] s := by
  have hmid : ∀ st, StreamChat.processLine sched bad st = st := by
    intro st
    unfold StreamChat.processLine
    rcases hbad with h | h
    · simp [h]
    · split <;> simp [h]
  simp [StreamChat.processLines, hmid]

/-- Witness for C5: a broken record between two chunk records. -/
theorem c5_bad_record_skipped_witness :
    (dataPre.isPrefixOf ("data: \x7boops".toList) = false ∨
      jsonParse (("data: \x7boops".toList).drop 6) = none) ∧
    StreamChat.processLines [] [dataPre ++ chunkPayload ("ab".toList),
        ("data: \x7boops".toList), dataPre ++ chunkPayload ("cd".toList)]
        StreamChat.turnStartEx =
      StreamChat.processLines [] [dataPre ++ chunkPayload ("ab".toList),
        dataPre ++ chunkPayload ("cd".toList)] StreamChat.turnStartEx :=
  ⟨Or.inr rfl,
   c5_bad_record_skipped [] StreamChat.turnStartEx (dataPre ++ chunkPayload ("ab".toList))
     ("data: \x7boops".toList) (dataPre ++ chunkPayload ("cd".toList)) (Or.inr rfl)⟩

/-! ## C8 — the backend's SSE write sequence -/

theorem chunkWrites_eq_filter_map (deltas : List (List Char)) :
    chunkWrites deltas =
      (deltas.filter (fun d => !d.isEmpty)).map (fun d => sseRecord (chunkPayload d)) := by
  induction deltas with
  | nil => rfl
  | cons d rest ih =>
    by_cases hd : d.isEmpty <;> simp [chunkWrites, hd, ih, List.filter_cons]

/-- Claim C8: on the success path the backend emits exactly one start record
first, then one chunk record per non-empty content delta, in delta order,
then exactly one done record last; every record is the line `data: <JSON>`
followed by a blank line, the JSON payloads being the `JSON.stringify` images
of the `start`/`chunk`/`done` tagged events. -/
theorem c8_wire_shape (deltas : List (List Char)) :
    streamHandler deltas =
      sseRecord startPayload ::
        ((deltas.filter (fun d => !d.isEmpty)).map (fun d => sseRecord (chunkPayload d)) ++
          [sseRecord donePayload]) ∧
    (streamHandler deltas).head? = some (sseRecord startPayload) ∧
    (streamHandler deltas).getLast? = some (sseRecord donePayload) ∧
    (streamHandler deltas).length = (deltas.filter (fun d => !d.isEmpty)).length + 2 ∧
    ∀ r ∈ streamHandler deltas, ∃ p, r = dataPre ++ p ++ ['\n', '\n'] := by
  have hmain : streamHandler deltas =
      sseRecord startPayload ::
        ((deltas.filter (fun d => !d.isEmpty)).map (fun d => sseRecord (chunkPayload d)) ++
          [sseRecord donePayload]) := by
    simp [streamHandler, chunkWrites_eq_filter_map]
  refine ⟨hmain, by simp [hmain], ?_, by simp [hmain], ?_⟩
  · rw [hmain]
    rw [show sseRecord startPayload ::
          ((deltas.filter (fun d => !d.isEmpty)).map (fun d => sseRecord (chunkPayload d)) ++
            [sseRecord donePayload]) =
        (sseRecord startPayload ::
          (deltas.filter (fun d => !d.isEmpty)).map (fun d => sseRecord (chunkPayload d))) ++
          [sseRecord donePayload] from by simp]
    exact List.getLast?_concat _
  · intro r hr
    rw [hmain] at hr
    rcases List.mem_cons.mp hr with h | h
    · exact ⟨startPayload, by simp [h, sseRecord]⟩
    · rcases List.mem_append.mp h with h | h
      · rcases List.mem_map.mp h with ⟨d, _, hd⟩
        exact ⟨chunkPayload d, by simp [← hd, sseRecord]⟩
      · exact ⟨donePayload, by simp [List.mem_singleton.mp h, sseRecord]⟩

/-- Witness for C8 (which quantifies over records): the concrete write
sequence for deltas `"Hi "`, `""`, `"there!"`. -/
theorem c8_wire_shape_witness :
    streamHandler [("Hi ".toList), ([] : List Char), ("there!".toList)] =
      sseRecord startPayload ::
        ((([("Hi ".toList), ([] : List Char), ("there!".toList)]).filter
            (fun d => !d.isEmpty)).map (fun d => sseRecord (chunkPayload d)) ++
          [sseRecord donePayload]) :=
  (c8_wire_shape [("Hi ".toList), ([] : List Char), ("there!".toList)]).1

theorem updateLast_append_pair {α : Type} (f : α → α) (xs : List α) (a b : α) :
    updateLast f (xs ++ [a, b]) = xs ++ [a, f b] := by
  have h := updateLast_append_one f (xs ++ [a]) b
  simpa using h

/-! ## C7 — cancel immediately after submit -/

/-- Claim C7: if `cancel()` runs right after `submit(text)`, before any stream
event arrives, the transcript ends with the submitted user message plus an
assistant message with empty content and `isStreaming = false`, and the error
state stays unset — the cancellation-induced fetch rejection (`AbortError`)
is absorbed by its dedicated `catch` branch and never surfaced. -/
theorem c7_cancel_after_submit (uid aid refs : Nat) (s : StreamChat.ChatState)
    (hin : (StreamChat.trimL s.input).isEmpty = false) (hstr : s.isStreaming = false) :
    StreamChat.abortCatch
        (StreamChat.handleCancel (StreamChat.handleSendEntry uid aid refs s)) =
      { s with
        messages := s.messages ++
          [ { id := uid, role := StreamChat.Role.user, content := StreamChat.trimL s.input,
              isStreaming := false, references := none },
            { id := aid, role := StreamChat.Role.assistant, content := [],
              isStreaming := false, references := some refs } ],
        input := [],
        isStreaming := false,
        error := none,
        buffer := [],
        timerOn := false,
        currentMessageId := none,
        hasReceivedChunk := false,
        abortActive := false } := by
  unfold StreamChat.abortCatch StreamChat.handleSendEntry StreamChat.handleCancel
  simp only [hin, hstr, Bool.or_self, Bool.false_eq_true, if_false, if_true]
  simp [updateLast_append_pair, StreamChat.stopStreamF]

/-- Witness for C7 from the fresh state with input `"hello"`. -/
theorem c7_cancel_after_submit_witness :
    ((StreamChat.trimL (StreamChat.ChatState.input
        { StreamChat.initState with input := "hello".toList })).isEmpty = false) ∧
    ((StreamChat.ChatState.isStreaming
        { StreamChat.initState with input := "hello".toList }) = false) ∧
    StreamChat.abortCatch
        (StreamChat.handleCancel (StreamChat.handleSendEntry 1 2 7
          { StreamChat.initState with input := "hello".toList })) =
      { { StreamChat.initState with input := "hello".toList } with
        messages := ({ StreamChat.initState with input := "hello".toList }).messages ++
          [ { id := 1, role := StreamChat.Role.user,
              content := StreamChat.trimL (StreamChat.ChatState.input
                { StreamChat.initState with input := "hello".toList }),
              isStreaming := false, references := none },
            { id := 2, role := StreamChat.Role.assistant, content := [],
              isStreaming := false, references := some 7 } ],
        input := [],
        isStreaming := false,
        error := none,
        buffer := [],
        timerOn := false,
        currentMessageId := none,
        hasReceivedChunk := false,
        abortActive := false } :=
  ⟨by decide, by decide,
   c7_cancel_after_submit 1 2 7 { StreamChat.initState with input := "hello".toList }
     (by decide) (by decide)⟩

/-! ## C3 — cancellation discards the buffer for good -/

theorem stopStreamF_idem (m : StreamChat.Message) :
    StreamChat.stopStreamF (StreamChat.stopStreamF m) = StreamChat.stopStreamF m := by
  unfold StreamChat.stopStreamF
  by_cases h : m.role = StreamChat.Role.assistant <;> simp [h]

theorem tick_fixed_of_inactive (s : StreamChat.ChatState)
    (h1 : s.currentMessageId = none) (h2 : s.buffer = []) (h3 : s.timerOn = false) :
    StreamChat.tick s = s := by
  cases s
  simp_all [StreamChat.tick]

theorem successFinish_fixed (s : StreamChat.ChatState)
    (h1 : s.isStreaming = false) (h2 : s.currentMessageId = none) (h3 : s.timerOn = false)
    (h4 : updateLast StreamChat.stopStreamF s.messages = s.messages) :
    StreamChat.successFinish s = s := by
  cases s
  simp_all [StreamChat.successFinish]

theorem pollOnce_fixed (cc ll : Nat) (s : StreamChat.ChatState)
    (h1 : s.isStreaming = false) (h2 : s.currentMessageId = none) (h3 : s.timerOn = false)
    (hb : s.buffer = [])
    (h4 : updateLast StreamChat.stopStreamF s.messages = s.messages) :
    StreamChat.pollOnce cc ll s = s := by
  unfold StreamChat.pollOnce StreamChat.pollClassify
  simp [hb, successFinish_fixed s h1 h2 h3 h4]

/-- Claim C3: after `handleCancel` fires while a request is in flight, the
in-flight assistant message (the last message) has `isStreaming = false`, the
buffered characters pending at that point are discarded, and no later step —
a stale interval tick or a stale `waitForBuffer` poll, in any number and
order — changes the state at all, so in particular no buffered character is
ever appended to any message after the cancellation point. -/
theorem c3_cancel_no_reappend (s : StreamChat.ChatState) (hab : s.abortActive = true)
    (hlast : ∀ m, s.messages.getLast? = some m → m.role = StreamChat.Role.assistant) :
    (StreamChat.handleCancel s).buffer = [] ∧
    (∀ m, (StreamChat.handleCancel s).messages.getLast? = some m →
      m.isStreaming = false) ∧
    (∀ steps : List StreamChat.PAct,
      StreamChat.runPost steps (StreamChat.handleCancel s) = StreamChat.handleCancel s) := by
  have hb' : (StreamChat.handleCancel s).buffer = [] := by
    simp [StreamChat.handleCancel, hab]
  have hid' : (StreamChat.handleCancel s).currentMessageId = none := by
    simp [StreamChat.handleCancel, hab]
  have ht' : (StreamChat.handleCancel s).timerOn = false := by
    simp [StreamChat.handleCancel, hab]
  have hs' : (StreamChat.handleCancel s).isStreaming = false := by
    simp [StreamChat.handleCancel, hab]
  have hmsg : (StreamChat.handleCancel s).messages =
      updateLast StreamChat.stopStreamF s.messages := by
    simp [StreamChat.handleCancel, hab]
  have hm' : updateLast StreamChat.stopStreamF (StreamChat.handleCancel s).messages =
      (StreamChat.handleCancel s).messages := by
    rw [hmsg, updateLast_comp, funext stopStreamF_idem]
  refine ⟨hb', ?_, ?_⟩
  · intro m hm
    rw [hmsg, updateLast_getLast] at hm
    match he : s.messages.getLast? with
    | none => rw [he] at hm; simp at hm
    | some m0 =>
      rw [he] at hm
      have hsm : StreamChat.stopStreamF m0 = m := by simpa using hm
      rw [← hsm]
      simp [StreamChat.stopStreamF, hlast m0 he]
  · intro steps
    induction steps with
    | nil => rfl
    | cons a rest ih =>
      cases a with
      | ptick =>
        show StreamChat.runPost rest (StreamChat.tick (StreamChat.handleCancel s)) = _
        rw [tick_fixed_of_inactive _ hid' hb' ht', ih]
      | ppoll cc ll =>
        show StreamChat.runPost rest (StreamChat.pollOnce cc ll (StreamChat.handleCancel s)) = _
        rw [pollOnce_fixed cc ll _ hs' hid' ht' hb' hm', ih]

/-- Witness for C3: cancelling `midTurnEx` (five of the ten characters
already revealed) discards the buffer and a stale tick / stale poll / stale
tick sequence changes nothing. -/
theorem c3_cancel_no_reappend_witness :
    StreamChat.ChatState.abortActive StreamChat.midTurnEx = true ∧
    (StreamChat.handleCancel StreamChat.midTurnEx).buffer = [] ∧
    StreamChat.runPost
        [StreamChat.PAct.ptick, StreamChat.PAct.ppoll 0 5, StreamChat.PAct.ptick]
        (StreamChat.handleCancel StreamChat.midTurnEx) =
      StreamChat.handleCancel StreamChat.midTurnEx := by
  have hlast : ∀ m, StreamChat.midTurnEx.messages.getLast? = some m →
      m.role = StreamChat.Role.assistant := by
    intro m hm
    have h1 : (StreamChat.midTurnEx.messages.getLast?).map StreamChat.Message.role =
        some StreamChat.Role.assistant := by decide
    rw [hm] at h1
    simpa using h1
  have h := c3_cancel_no_reappend StreamChat.midTurnEx (by decide) hlast
  exact ⟨by decide, h.1,
    h.2.2 [StreamChat.PAct.ptick, StreamChat.PAct.ppoll 0 5, StreamChat.PAct.ptick]⟩

/-! ## C6 — a late chunk is not a no-op -/

/-- Counterexample to claim C6 as stated: in the post-cancellation state
`cancelledEx` (active message id cleared), a late `chunk` event both grows
the pending queue and mutates the transcript (the first-chunk branch wipes
the last assistant message's content), so "the pending queue and all messages
remain unchanged" is false. -/
theorem c6_counterexample :
    StreamChat.cancelledEx.currentMessageId = none ∧
    (StreamChat.handleChunk ("X".toList) StreamChat.cancelledEx).buffer ≠
      StreamChat.cancelledEx.buffer ∧
    (StreamChat.handleChunk ("X".toList) StreamChat.cancelledEx).messages ≠
      StreamChat.cancelledEx.messages := by decide

theorem tick_parts_of_noId (s : StreamChat.ChatState)
    (h : s.currentMessageId = none) :
    (StreamChat.tick s).messages = s.messages ∧
    (StreamChat.tick s).currentMessageId = none := by
  unfold StreamChat.tick
  split
  · simp_all
  · split <;> simp_all

theorem ticksN_messages_of_noId (n : Nat) (s : StreamChat.ChatState)
    (h : s.currentMessageId = none) :
    (StreamChat.ticksN n s).messages = s.messages := by
  induction n generalizing s with
  | zero => rfl
  | succ n ih =>
    show (StreamChat.ticksN n (StreamChat.tick s)).messages = _
    rw [ih _ (tick_parts_of_noId s h).2, (tick_parts_of_noId s h).1]

/-- Claim C6, corrected: with `activeMessageId` unset (after cancellation) a
late `chunk` event is *not* a no-op — it still appends its content to the
pending queue, and when the first-chunk flag was reset it also wipes the last
assistant message's content — but the timer is left off, the id stays unset,
and no number of subsequent ticks ever moves a buffered character into any
message, so a cleared message is never resurrected with buffered content. -/
theorem c6_amended_late_chunk (s : StreamChat.ChatState) (c : List Char)
    (hid : s.currentMessageId = none) (ht : s.timerOn = false) :
    (StreamChat.handleChunk c s).currentMessageId = none ∧
    (StreamChat.handleChunk c s).timerOn = false ∧
    (c.isEmpty = true → StreamChat.handleChunk c s = s) ∧
    (c.isEmpty = false → s.hasReceivedChunk = true →
      (StreamChat.handleChunk c s).messages = s.messages ∧
      (StreamChat.handleChunk c s).buffer = s.buffer ++ c) ∧
    (c.isEmpty = false → s.hasReceivedChunk = false →
      (StreamChat.handleChunk c s).messages =
        updateLast (StreamChat.setContentF []) s.messages ∧
      (StreamChat.handleChunk c s).buffer = c) ∧
    (∀ n, (StreamChat.ticksN n (StreamChat.handleChunk c s)).messages =
      (StreamChat.handleChunk c s).messages) := by
  have hid' : (StreamChat.handleChunk c s).currentMessageId = none := by
    unfold StreamChat.handleChunk
    by_cases hc : c.isEmpty <;> by_cases hr : s.hasReceivedChunk <;> simp [hc, hr, hid]
  refine ⟨hid', ?_, ?_, ?_, ?_, fun n => ticksN_messages_of_noId n _ hid'⟩
  · unfold StreamChat.handleChunk
    by_cases hc : c.isEmpty <;> by_cases hr : s.hasReceivedChunk <;>
      simp [hc, hr, hid, ht]
  · intro hc
    simp [StreamChat.handleChunk, hc]
  · intro hc hr
    simp [StreamChat.handleChunk, hc, hr]
  · intro hc hr
    simp [StreamChat.handleChunk, hc, hr]

/-- Witness for the amended C6 at the concrete post-cancellation state. -/
theorem c6_amended_late_chunk_witness :
    StreamChat.cancelledEx.currentMessageId = none ∧
    StreamChat.cancelledEx.timerOn = false ∧
    (StreamChat.handleChunk ("X".toList) StreamChat.cancelledEx).currentMessageId = none ∧
    (StreamChat.handleChunk ("X".toList) StreamChat.cancelledEx).timerOn = false ∧
    (StreamChat.ticksN 3 (StreamChat.handleChunk ("X".toList) StreamChat.cancelledEx)).messages =
      (StreamChat.handleChunk ("X".toList) StreamChat.cancelledEx).messages := by
  have h := c6_amended_late_chunk StreamChat.cancelledEx ("X".toList) (by decide) (by decide)
  exact ⟨by decide, by decide, h.1, h.2.1, h.2.2.2.2.2 3⟩

/-! ## C2 — bounded wait in `StreamChat`, unbounded wait in `StreamAIChat` -/

theorem waitForBuffer_step (fuel cc ll : Nat) (sched : List Nat)
    (t : StreamChat.ChatState)
    (h : StreamChat.pollClassify (cc + 1) ll t = none) :
    StreamChat.waitForBuffer (fuel + 1) cc ll sched t =
      StreamChat.waitForBuffer fuel (cc + 1) t.buffer.length sched.tail
        (StreamChat.ticksN (sched.headD 0) t) := by
  simp [StreamChat.waitForBuffer, h]

theorem waitForBuffer_stop (fuel cc ll : Nat) (sched : List Nat)
    (t r : StreamChat.ChatState)
    (h : StreamChat.pollClassify (cc + 1) ll t = some r) :
    StreamChat.waitForBuffer (fuel + 1) cc ll sched t = (r, cc + 1) := by
  simp [StreamChat.waitForBuffer, h]

theorem waitForBuffer_polls_le (fuel : Nat) :
    ∀ (cc ll : Nat) (sched : List Nat) (t : StreamChat.ChatState),
      cc + fuel = 100 → cc ≤ 99 →
      (StreamChat.waitForBuffer fuel cc ll sched t).2 ≤ 100 := by
  induction fuel with
  | zero => intro cc ll sched t hinv hcc; omega
  | succ fuel ih =>
    intro cc ll sched t hinv hcc
    cases h : StreamChat.pollClassify (cc + 1) ll t with
    | some r =>
      rw [waitForBuffer_stop fuel cc ll sched t r h]
      omega
    | none =>
      rw [waitForBuffer_step fuel cc ll sched t h]
      have hcc1 : cc + 1 ≤ 99 := by
        by_cases h3 : 100 ≤ cc + 1
        · exfalso
          unfold StreamChat.pollClassify at h
          split_ifs at h
        · omega
      exact ih (cc + 1) _ _ _ (by omega) hcc1

/-- Claim C2, amended for `StreamChat.tsx`: if the done event arrives with a
non-empty pending buffer and a stalled drain timer (no tick ever fires
between polls), the `waitForBuffer` chain detects the stall at its sixth poll
(well under the 100-poll / ~10 s ceiling) and appends every remaining
buffered character to the assistant message in one flush, marking it
`isStreaming = false`; and for every schedule the poll counter never exceeds
100, so the wait never continues unboundedly. -/
theorem c2_amended_stalled_flush (s : StreamChat.ChatState) (aid : Nat)
    (m : StreamChat.Message)
    (hb : s.buffer ≠ []) (ht : s.timerOn = true)
    (hid : s.currentMessageId = some aid)
    (hm : s.messages.getLast? = some m) (hmid : m.id = aid)
    (hrole : m.role = StreamChat.Role.assistant) :
    StreamChat.handleDone [] s = StreamChat.flushFinish s ∧
    (StreamChat.waitForBuffer 100 0 s.buffer.length [] s).2 = 6 ∧
    (StreamChat.handleDone [] s).messages.getLast? =
      some { m with content := m.content ++ s.buffer, isStreaming := false } ∧
    (StreamChat.handleDone [] s).buffer = [] ∧
    (StreamChat.handleDone [] s).isStreaming = false ∧
    (∀ fuel cc ll sched t, cc + fuel = 100 → cc ≤ 99 →
      (StreamChat.waitForBuffer fuel cc ll sched t).2 ≤ 100) := by
  have h0 : ¬(s.buffer.length = 0) := by
    simpa [List.length_eq_zero] using hb
  have hnone : ∀ k, 1 ≤ k → k ≤ 5 →
      StreamChat.pollClassify k s.buffer.length s = none := by
    intro k h1 h5
    unfold StreamChat.pollClassify
    rw [if_neg h0, if_neg (by rintro ⟨-, hlt⟩; omega), if_neg (by omega)]
  have hsome : StreamChat.pollClassify 6 s.buffer.length s =
      some (StreamChat.flushFinish s) := by
    unfold StreamChat.pollClassify
    rw [if_neg h0, if_pos ⟨rfl, by omega⟩]
  have step : ∀ fuel cc : Nat, cc + 1 ≤ 5 →
      StreamChat.waitForBuffer (fuel + 1) cc s.buffer.length [] s =
        StreamChat.waitForBuffer fuel (cc + 1) s.buffer.length [] s := by
    intro fuel cc hcc
    rw [waitForBuffer_step fuel cc _ [] s (hnone (cc + 1) (by omega) hcc)]
    simp [StreamChat.ticksN]
  have hrun : StreamChat.waitForBuffer 100 0 s.buffer.length [] s =
      (StreamChat.flushFinish s, 6) := by
    rw [show (100 : Nat) = 99 + 1 from rfl, step 99 0 (by omega)]
    rw [show (99 : Nat) = 98 + 1 from rfl, step 98 1 (by omega)]
    rw [show (98 : Nat) = 97 + 1 from rfl, step 97 2 (by omega)]
    rw [show (97 : Nat) = 96 + 1 from rfl, step 96 3 (by omega)]
    rw [show (96 : Nat) = 95 + 1 from rfl, step 95 4 (by omega)]
    rw [show (95 : Nat) = 94 + 1 from rfl,
      waitForBuffer_stop 94 5 _ [] s (StreamChat.flushFinish s) hsome]
  have hdone : StreamChat.handleDone [] s = StreamChat.flushFinish s := by
    unfold StreamChat.handleDone
    rw [if_neg (by simp [ht]), hrun]
  have hlast2 : (StreamChat.flushFinish s).messages.getLast? =
      some { m with content := m.content ++ s.buffer, isStreaming := false } := by
    simp [StreamChat.flushFinish, updateLast_getLast, hm, StreamChat.flushF, hid,
      hmid, hrole]
  refine ⟨hdone, by rw [hrun], ?_, ?_, ?_,
    fun fuel cc ll sched t h1 h2 => waitForBuffer_polls_le fuel cc ll sched t h1 h2⟩
  · rw [hdone]; exact hlast2
  · rw [hdone]; simp [StreamChat.flushFinish]
  · rw [hdone]; simp [StreamChat.flushFinish]

/-- Witness for the amended C2: `stalledEx` holds 50 buffered characters with
a stalled timer; `handleDone` flushes all of them in one step and ends the
stream. -/
theorem c2_amended_stalled_flush_witness :
    StreamChat.stalledEx.buffer ≠ [] ∧
    StreamChat.stalledEx.timerOn = true ∧
    StreamChat.stalledEx.currentMessageId = some 2 ∧
    (StreamChat.handleDone [] StreamChat.stalledEx).messages.getLast? =
      some { id := 2, role := StreamChat.Role.assistant,
             content := [] ++ StreamChat.stalledEx.buffer, isStreaming := false,
             references := some 7 } ∧
    (StreamChat.handleDone [] StreamChat.stalledEx).isStreaming = false := by
  have h := c2_amended_stalled_flush StreamChat.stalledEx 2
    { id := 2, role := StreamChat.Role.assistant, content := [],
      isStreaming := true, references := some 7 }
    (by decide) (by decide) (by decide) (by decide) (by decide) (by decide)
  exact ⟨by decide, by decide, by decide, h.2.2.1, h.2.2.2.2.1⟩

set_option maxRecDepth 4000 in
/-- Counterexample to claim C2 as stated: the claim also cites the
`StreamAIChat` implementation's `waitForBuffer` (part_000 lines 1528–1549),
which has no poll ceiling at all — with the drain timer stalled and 50
characters pending, even after 150 polls (past the claimed ~10 s / 100-poll
ceiling) not one buffered character has been appended, the assistant message
is still streaming, and the wait goes on. -/
theorem c2_counterexample :
    (AIChat.waitPoll^[150] AIChat.stalledExA).buffer.length = 50 ∧
    ((AIChat.waitPoll^[150] AIChat.stalledExA).messages.getLast?).map
      AIChat.Message.isStreaming = some true ∧
    ((AIChat.waitPoll^[150] AIChat.stalledExA).messages.getLast?).map
      AIChat.Message.content = some [] ∧
    (AIChat.waitPoll^[150] AIChat.stalledExA).isStreaming = true := by decide

/-! ## C1 — content integrity through a turn -/

theorem tick_drain (s : StreamChat.ChatState) (mid : Nat) (c : Char) (rest : List Char)
    (hid : s.currentMessageId = some mid) (hb : s.buffer = c :: rest) :
    StreamChat.tick s =
      { s with
        buffer := rest,
        messages :=
          updateLast (StreamChat.drainF mid c (decide (rest ≠ []) || true)) s.messages } := by
  cases s
  simp_all [StreamChat.tick]

theorem tick_skip (s : StreamChat.ChatState) (mid : Nat)
    (hid : s.currentMessageId = some mid) (hb : s.buffer = []) :
    StreamChat.tick s = s := by
  cases s
  simp_all [StreamChat.tick]

theorem turnInv_tick (aid : Nat) (sofar : List Char) (s : StreamChat.ChatState)
    (h : StreamChat.TurnInv aid sofar s) :
    StreamChat.TurnInv aid sofar (StreamChat.tick s) := by
  obtain ⟨hid, ht, m, hm, hmid, hrole, hstr, hph⟩ := h
  cases hb : s.buffer with
  | nil =>
    rw [tick_skip s aid hid hb]
    exact ⟨hid, ht, m, hm, hmid, hrole, hstr, hph⟩
  | cons c rest =>
    rw [tick_drain s aid c rest hid hb]
    refine ⟨hid, ht, StreamChat.drainF aid c (decide (rest ≠ []) || true) m, ?_, ?_⟩
    · simp [updateLast_getLast, hm]
    · rcases hph with ⟨-, hbuf, -⟩ | ⟨hrc, hcb⟩
      · rw [hb] at hbuf; cases hbuf
      · rw [hb] at hcb
        refine ⟨?_, ?_, ?_, Or.inr ⟨hrc, ?_⟩⟩ <;>
          simp [StreamChat.drainF, hmid, hrole, ← hcb]

theorem turnInv_chunk (aid : Nat) (sofar c : List Char) (s : StreamChat.ChatState)
    (h : StreamChat.TurnInv aid sofar s) :
    StreamChat.TurnInv aid (sofar ++ c) (StreamChat.handleChunk c s) := by
  obtain ⟨hid, ht, m, hm, hmid, hrole, hstr, hph⟩ := h
  by_cases hc : c.isEmpty
  · have hce : c = [] := List.isEmpty_iff.mp hc
    rw [StreamChat.handleChunk, if_pos hc, hce, List.append_nil]
    exact ⟨hid, ht, m, hm, hmid, hrole, hstr, hph⟩
  · rcases hph with ⟨hrc, hbuf, hsof⟩ | ⟨hrc, hcb⟩
    · -- first (non-empty) chunk of the turn
      rw [StreamChat.handleChunk, if_neg hc]
      simp only [hrc, if_neg (Bool.false_ne_true)]
      refine ⟨by simp [hid], by simp [hid], StreamChat.setContentF [] m, ?_, ?_⟩
      · simp [updateLast_getLast, hm]
      · refine ⟨?_, ?_, ?_, Or.inr ⟨rfl, ?_⟩⟩ <;>
          simp [StreamChat.setContentF, hrole, hmid, hstr, hsof]
    · -- later chunk: only the buffer grows
      have hred : StreamChat.handleChunk c s = { s with buffer := s.buffer ++ c } := by
        rw [StreamChat.handleChunk, if_neg hc]
        simp [hrc]
      rw [hred]
      exact ⟨hid, ht, m, hm, hmid, hrole, hstr,
        Or.inr ⟨hrc, by rw [← List.append_assoc, hcb]⟩⟩

theorem turnInv_runActs (aid : Nat) :
    ∀ (acts : List StreamChat.Act) (sofar : List Char) (s : StreamChat.ChatState),
      StreamChat.TurnInv aid sofar s →
      StreamChat.TurnInv aid (sofar ++ StreamChat.concatChunks acts)
        (StreamChat.runActs acts s)
  | [], sofar, s, h => by simpa [StreamChat.runActs, StreamChat.concatChunks] using h
  | StreamChat.Act.tick :: r, sofar, s, h => by
    have := turnInv_runActs aid r sofar (StreamChat.tick s) (turnInv_tick aid sofar s h)
    simpa [StreamChat.runActs, StreamChat.concatChunks] using this
  | StreamChat.Act.chunk c :: r, sofar, s, h => by
    have := turnInv_runActs aid r (sofar ++ c) (StreamChat.handleChunk c s)
      (turnInv_chunk aid sofar c s h)
    simpa [StreamChat.runActs, StreamChat.concatChunks, List.append_assoc] using this

theorem turnInv_ticksN (aid : Nat) (sofar : List Char) :
    ∀ (n : Nat) (s : StreamChat.ChatState), StreamChat.TurnInv aid sofar s →
      StreamChat.TurnInv aid sofar (StreamChat.ticksN n s)
  | 0, _, h => h
  | n + 1, s, h => turnInv_ticksN aid sofar n (StreamChat.tick s) (turnInv_tick aid sofar s h)

theorem turnInv_start (s : StreamChat.ChatState) (uid aid refs : Nat)
    (hint : Option (List Char))
    (hin : (StreamChat.trimL s.input).isEmpty = false) (hstr : s.isStreaming = false) :
    StreamChat.TurnInv aid []
      (StreamChat.handleStart hint
        (StreamChat.streamSetup aid (StreamChat.handleSendEntry uid aid refs s))) := by
  unfold StreamChat.handleSendEntry StreamChat.streamSetup StreamChat.handleStart
  simp only [hin, hstr, Bool.or_self, Bool.false_eq_true, if_false]
  refine ⟨rfl, rfl,
    { id := aid, role := StreamChat.Role.assistant, content := hint.getD [],
      isStreaming := true, references := some refs }, ?_, rfl, rfl, rfl,
    Or.inl ⟨rfl, rfl, rfl⟩⟩
  rw [updateLast_append_pair]
  simp [StreamChat.setContentF, List.getLast?_concat]

theorem pollClassify_spec (k ll : Nat) (t r : StreamChat.ChatState)
    (h : StreamChat.pollClassify k ll t = some r) :
    (t.buffer = [] ∧ r = StreamChat.successFinish t) ∨ r = StreamChat.flushFinish t := by
  unfold StreamChat.pollClassify at h
  split_ifs at h with h1 h2 h3
  · exact Or.inl ⟨List.length_eq_zero.mp h1, (Option.some.inj h).symm⟩
  · exact Or.inr (Option.some.inj h).symm
  · exact Or.inr (Option.some.inj h).symm

theorem successFinish_final (aid : Nat) (C : List Char) (t : StreamChat.ChatState)
    (hC : C ≠ []) (hInv : StreamChat.TurnInv aid C t) (hb : t.buffer = []) :
    ∃ m', (StreamChat.successFinish t).messages.getLast? = some m' ∧
      m'.id = aid ∧ m'.role = StreamChat.Role.assistant ∧ m'.content = C ∧
      m'.isStreaming = false ∧
      (StreamChat.successFinish t).buffer = [] ∧
      (StreamChat.successFinish t).isStreaming = false ∧
      (StreamChat.successFinish t).currentMessageId = none := by
  obtain ⟨hid, ht, m, hm, hmid, hrole, hstr, hph⟩ := hInv
  have hcb : m.content = C := by
    rcases hph with ⟨-, -, hsof⟩ | ⟨-, hcb⟩
    · exact absurd hsof hC
    · rw [← hcb, hb, List.append_nil]
  refine ⟨StreamChat.stopStreamF m, ?_, ?_⟩
  · simp [StreamChat.successFinish, updateLast_getLast, hm]
  · refine ⟨?_, ?_, ?_, ?_, hb, rfl, rfl⟩ <;>
      simp [StreamChat.stopStreamF, hrole, hmid, hcb]

theorem flushFinish_final (aid : Nat) (C : List Char) (t : StreamChat.ChatState)
    (hC : C ≠ []) (hInv : StreamChat.TurnInv aid C t) :
    ∃ m', (StreamChat.flushFinish t).messages.getLast? = some m' ∧
      m'.id = aid ∧ m'.role = StreamChat.Role.assistant ∧ m'.content = C ∧
      m'.isStreaming = false ∧
      (StreamChat.flushFinish t).buffer = [] ∧
      (StreamChat.flushFinish t).isStreaming = false ∧
      (StreamChat.flushFinish t).currentMessageId = none := by
  obtain ⟨hid, ht, m, hm, hmid, hrole, hstr, hph⟩ := hInv
  have hcb : m.content ++ t.buffer = C := by
    rcases hph with ⟨-, hb, hsof⟩ | ⟨-, hcb⟩
    · exact absurd hsof hC
    · exact hcb
  refine ⟨StreamChat.flushF t.currentMessageId t.buffer m, ?_, ?_⟩
  · simp [StreamChat.flushFinish, updateLast_getLast, hm]
  · refine ⟨?_, ?_, ?_, ?_, rfl, rfl, rfl⟩ <;>
      simp [StreamChat.flushF, hid, hmid, hrole, hcb]

theorem waitForBuffer_final (aid : Nat) (C : List Char) (hC : C ≠ []) :
    ∀ (fuel : Nat) (cc ll : Nat) (sched : List Nat) (t : StreamChat.ChatState),
      cc + fuel = 100 → cc ≤ 99 → StreamChat.TurnInv aid C t →
      ∃ m', (StreamChat.waitForBuffer fuel cc ll sched t).1.messages.getLast? = some m' ∧
        m'.id = aid ∧ m'.role = StreamChat.Role.assistant ∧ m'.content = C ∧
        m'.isStreaming = false ∧
        (StreamChat.waitForBuffer fuel cc ll sched t).1.buffer = [] ∧
        (StreamChat.waitForBuffer fuel cc ll sched t).1.isStreaming = false ∧
        (StreamChat.waitForBuffer fuel cc ll sched t).1.currentMessageId = none := by
  intro fuel
  induction fuel with
  | zero => intro cc ll sched t hinv hcc; omega
  | succ fuel ih =>
    intro cc ll sched t hinv hcc hInv
    cases h : StreamChat.pollClassify (cc + 1) ll t with
    | some r =>
      rw [waitForBuffer_stop fuel cc ll sched t r h]
      rcases pollClassify_spec (cc + 1) ll t r h with ⟨hb, hr⟩ | hr
      · rw [hr]; exact successFinish_final aid C t hC hInv hb
      · rw [hr]; exact flushFinish_final aid C t hC hInv
    | none =>
      rw [waitForBuffer_step fuel cc ll sched t h]
      have hcc1 : cc + 1 ≤ 99 := by
        by_cases h3 : 100 ≤ cc + 1
        · exfalso
          unfold StreamChat.pollClassify at h
          split_ifs at h
        · omega
      exact ih (cc + 1) _ _ _ (by omega) hcc1
        (turnInv_ticksN aid C (sched.headD 0) t hInv)

/-- Claim C1, amended: over a turn in which the chunk events deliver total
content `C ≠ ""` (at least one non-empty chunk, so the first-chunk reset
drops the start hint), for every interleaving of chunk events and timer
ticks and every wait schedule, after the done handling completes the
assistant message's content (delta since the empty placeholder at turn
start) is exactly `C` — nothing dropped, duplicated or reordered — the
pending buffer is fully drained, and at no instant before finalization is
the message marked non-streaming. -/
theorem c1_amended_content_exact (s : StreamChat.ChatState) (uid aid refs : Nat)
    (hint : Option (List Char)) (acts : List StreamChat.Act) (sched : List Nat)
    (hin : (StreamChat.trimL s.input).isEmpty = false) (hstr : s.isStreaming = false)
    (hC : StreamChat.concatChunks acts ≠ []) :
    (∀ pre suf, acts = pre ++ suf →
      ∃ m, (StreamChat.runActs pre (StreamChat.handleStart hint (StreamChat.streamSetup aid
          (StreamChat.handleSendEntry uid aid refs s)))).messages.getLast? = some m ∧
        m.isStreaming = true) ∧
    ∃ m, (StreamChat.handleDone sched (StreamChat.runActs acts
        (StreamChat.handleStart hint (StreamChat.streamSetup aid
          (StreamChat.handleSendEntry uid aid refs s))))).messages.getLast? = some m ∧
      m.id = aid ∧ m.role = StreamChat.Role.assistant ∧
      m.content = StreamChat.concatChunks acts ∧ m.isStreaming = false ∧
      (StreamChat.handleDone sched (StreamChat.runActs acts
        (StreamChat.handleStart hint (StreamChat.streamSetup aid
          (StreamChat.handleSendEntry uid aid refs s))))).buffer = [] ∧
      (StreamChat.handleDone sched (StreamChat.runActs acts
        (StreamChat.handleStart hint (StreamChat.streamSetup aid
          (StreamChat.handleSendEntry uid aid refs s))))).isStreaming = false := by
  have h0 := turnInv_start s uid aid refs hint hin hstr
  constructor
  · intro pre suf hsplit
    obtain ⟨-, -, m, hm, -, -, hstr', -⟩ := turnInv_runActs aid pre [] _ h0
    exact ⟨m, hm, hstr'⟩
  · have hall := turnInv_runActs aid acts [] _ h0
    rw [List.nil_append] at hall
    have ht2 : (StreamChat.runActs acts (StreamChat.handleStart hint
        (StreamChat.streamSetup aid (StreamChat.handleSendEntry uid aid refs s)))).timerOn =
        true := hall.2.1
    have hdone : StreamChat.handleDone sched (StreamChat.runActs acts
        (StreamChat.handleStart hint (StreamChat.streamSetup aid
          (StreamChat.handleSendEntry uid aid refs s)))) =
        (StreamChat.waitForBuffer 100 0
          (StreamChat.runActs acts (StreamChat.handleStart hint (StreamChat.streamSetup aid
            (StreamChat.handleSendEntry uid aid refs s)))).buffer.length sched
          (StreamChat.runActs acts (StreamChat.handleStart hint (StreamChat.streamSetup aid
            (StreamChat.handleSendEntry uid aid refs s))))).1 := by
      unfold StreamChat.handleDone
      rw [if_neg]
      rintro ⟨h1, -, -⟩
      rw [ht2] at h1
      exact absurd h1 (by simp)
    rw [hdone]
    obtain ⟨m, h1, h2, h3, h4, h5, h6, h7, -⟩ :=
      waitForBuffer_final aid (StreamChat.concatChunks acts) hC 100 0 _ sched _ rfl
        (by omega) hall
    exact ⟨m, h1, h2, h3, h4, h5, h6, h7⟩

/-- Counterexample to claim C1 as stated, universally over all turns: in a
turn with zero chunk events (total content C = `""`), after the done
handling completes, the assistant message's content is the start hint
`"开始生成..."` set by the `start` handler — not C — so characters that never
arrived as chunk content are displayed and the content delta differs from C. -/
theorem c1_counterexample :
    StreamChat.concatChunks [] = [] ∧
    ((StreamChat.handleDone [] (StreamChat.runActs []
        StreamChat.turnStartEx)).messages.getLast?).map
      StreamChat.Message.content = some ("开始生成...".toList) ∧
    ((StreamChat.handleDone [] (StreamChat.runActs []
        StreamChat.turnStartEx)).messages.getLast?).map
      StreamChat.Message.isStreaming = some false ∧
    some ("开始生成...".toList) ≠ some (StreamChat.concatChunks []) := by decide

/-- Witness for the amended C1: the end-to-end turn of the spec (`"Hi "` then
`"there!"` with an interleaved tick) ends with content exactly `"Hi there!"`. -/
theorem c1_amended_content_exact_witness :
    (StreamChat.trimL (StreamChat.ChatState.input
      { StreamChat.initState with input := "hello".toList })).isEmpty = false ∧
    StreamChat.concatChunks [StreamChat.Act.chunk ("Hi ".toList), StreamChat.Act.tick,
      StreamChat.Act.chunk ("there!".toList)] ≠ [] ∧
    ((StreamChat.handleDone [3, 3, 3, 3] (StreamChat.runActs
        [StreamChat.Act.chunk ("Hi ".toList), StreamChat.Act.tick,
          StreamChat.Act.chunk ("there!".toList)]
        (StreamChat.handleStart (some ("开始生成...".toList)) (StreamChat.streamSetup 2
          (StreamChat.handleSendEntry 1 2 7
            { StreamChat.initState with input := "hello".toList }))))).messages.getLast?).map
      StreamChat.Message.content = some ("Hi there!".toList) := by
  have h := c1_amended_content_exact { StreamChat.initState with input := "hello".toList }
    1 2 7 (some ("开始生成...".toList))
    [StreamChat.Act.chunk ("Hi ".toList), StreamChat.Act.tick,
      StreamChat.Act.chunk ("there!".toList)] [3, 3, 3, 3]
    (by decide) (by decide) (by decide)
  obtain ⟨-, m, hm, -, -, hcont, -, -, -⟩ := h
  refine ⟨by decide, by decide, ?_⟩
  rw [hm]
  simp [hcont]
  decide

/-! ## C4 — `displayedLengthRef` tracks the revealed content -/

theorem tickA_skip (s : AIChat.State) (mid : Nat)
    (hid : s.currentMessageId = some mid) (hb : s.buffer = []) :
    AIChat.tick s = s := by
  cases s
  simp_all [AIChat.tick]

theorem tickA_drain (s : AIChat.State) (mid : Nat) (c : Char) (rest : List Char)
    (m : AIChat.Message)
    (hid : s.currentMessageId = some mid) (hb : s.buffer = c :: rest)
    (hm : s.messages.getLast? = some m) :
    AIChat.tick s =
      { s with
        buffer := rest,
        messages := updateLast
          (fun _ => (AIChat.drainA mid c (decide (rest ≠ []) || true)
            s.displayedLength m).1) s.messages,
        displayedLength :=
          if (AIChat.drainA mid c (decide (rest ≠ []) || true) s.displayedLength m).2 then
            s.displayedLength + 1
          else s.displayedLength } := by
  cases s
  simp_all [AIChat.tick]

theorem turnInvA_tick (aid : Nat) (sofar : List Char) (s : AIChat.State)
    (h : AIChat.TurnInvA aid sofar s) :
    AIChat.TurnInvA aid sofar (AIChat.tick s) := by
  obtain ⟨hid, m, hm, hmid, hrole, hstr, hdl, hcb⟩ := h
  cases hb : s.buffer with
  | nil => rw [tickA_skip s aid hid hb]; exact ⟨hid, m, hm, hmid, hrole, hstr, hdl, hcb⟩
  | cons c rest =>
    rw [tickA_drain s aid c rest m hid hb hm]
    have hdr : AIChat.drainA aid c true m.content.length m =
        Prod.mk { m with content := m.content ++ [c], isStreaming := true } true := by
      unfold AIChat.drainA
      rw [if_pos ⟨hmid, hrole⟩, if_pos rfl]
    rw [hb] at hcb
    refine ⟨hid,
      { m with content := m.content ++ [c], isStreaming := true },
      ?_, ?_, ?_, ?_, ?_, ?_⟩ <;>
      simp [hdr, updateLast_getLast, hm, hdl, hmid, hrole, ← hcb]

theorem turnInvA_chunk (aid : Nat) (sofar c : List Char) (s : AIChat.State)
    (h : AIChat.TurnInvA aid sofar s) :
    AIChat.TurnInvA aid (sofar ++ c) (AIChat.handleChunk c s) := by
  obtain ⟨hid, m, hm, hmid, hrole, hstr, hdl, hcb⟩ := h
  by_cases hc : c.isEmpty
  · have hce : c = [] := List.isEmpty_iff.mp hc
    rw [AIChat.handleChunk, if_pos hc, hce, List.append_nil]
    exact ⟨hid, m, hm, hmid, hrole, hstr, hdl, hcb⟩
  · rw [AIChat.handleChunk, if_neg hc]
    exact ⟨hid, m, hm, hmid, hrole, hstr, hdl, by rw [← List.append_assoc, hcb]⟩

theorem turnInvA_runActs (aid : Nat) :
    ∀ (acts : List StreamChat.Act) (sofar : List Char) (s : AIChat.State),
      AIChat.TurnInvA aid sofar s →
      AIChat.TurnInvA aid (sofar ++ StreamChat.concatChunks acts) (AIChat.runActs acts s)
  | [], sofar, s, h => by simpa [AIChat.runActs, StreamChat.concatChunks] using h
  | StreamChat.Act.tick :: r, sofar, s, h => by
    have := turnInvA_runActs aid r sofar (AIChat.tick s) (turnInvA_tick aid sofar s h)
    simpa [AIChat.runActs, StreamChat.concatChunks] using this
  | StreamChat.Act.chunk c :: r, sofar, s, h => by
    have := turnInvA_runActs aid r (sofar ++ c) (AIChat.handleChunk c s)
      (turnInvA_chunk aid sofar c s h)
    simpa [AIChat.runActs, StreamChat.concatChunks, List.append_assoc] using this

theorem getLast?_append_pair {α : Type} (xs : List α) (a b : α) :
    (xs ++ [a, b]).getLast? = some b := by
  rw [show xs ++ [a, b] = (xs ++ [a]) ++ [b] by simp]
  exact List.getLast?_concat _

theorem turnInvA_start (s : AIChat.State) (uid aid : Nat) (stats : Option Json)
    (hin : (StreamChat.trimL s.input).isEmpty = false) (hstr : s.isStreaming = false) :
    AIChat.TurnInvA aid []
      (AIChat.handleStart stats
        (AIChat.streamSetup aid (AIChat.handleSendEntry uid aid s))) := by
  unfold AIChat.handleSendEntry AIChat.streamSetup AIChat.handleStart
  simp only [hin, hstr, Bool.or_self, Bool.false_eq_true, if_false]
  rw [updateLast_append_pair]
  refine ⟨rfl, _, getLast?_append_pair _ _ _, ?_, ?_, ?_, ?_, ?_⟩ <;> cases stats <;> rfl

/-- Claim C4: at every reachable instant of a `StreamAIChat` turn — i.e.
after the `start` event and any interleaving of chunk events and timer ticks
— `displayedLengthRef` equals the length of the active assistant message's
visible content minus its (empty) content at turn start, and that content is
a prefix of the concatenated chunk content that has arrived over the network,
so the display never runs ahead of the network (no speculative reveal). -/
theorem c4_displayed_invariant (s : AIChat.State) (uid aid : Nat) (stats : Option Json)
    (hin : (StreamChat.trimL s.input).isEmpty = false) (hstr : s.isStreaming = false) :
    ∀ acts : List StreamChat.Act,
      ∃ m, (AIChat.runActs acts (AIChat.handleStart stats (AIChat.streamSetup aid
          (AIChat.handleSendEntry uid aid s)))).messages.getLast? = some m ∧
        m.id = aid ∧ m.role = StreamChat.Role.assistant ∧
        (AIChat.runActs acts (AIChat.handleStart stats (AIChat.streamSetup aid
          (AIChat.handleSendEntry uid aid s)))).displayedLength = m.content.length ∧
        m.content <+: StreamChat.concatChunks acts := by
  intro acts
  have h := turnInvA_runActs aid acts [] _ (turnInvA_start s uid aid stats hin hstr)
  rw [List.nil_append] at h
  obtain ⟨-, m, hm, hmid, hrole, -, hdl, hcb⟩ := h
  exact ⟨m, hm, hmid, hrole, hdl, ⟨_, hcb⟩⟩

/-- Witness for C4: chunk `"abc"` followed by two ticks leaves
`displayedLengthRef` equal to the revealed content length (2). -/
theorem c4_displayed_invariant_witness :
    (StreamChat.trimL (AIChat.State.input
      { AIChat.initStateA with input := "hi".toList })).isEmpty = false ∧
    ((AIChat.runActs [StreamChat.Act.chunk ("abc".toList), StreamChat.Act.tick,
        StreamChat.Act.tick]
      (AIChat.handleStart none (AIChat.streamSetup 2 (AIChat.handleSendEntry 1 2
        { AIChat.initStateA with input := "hi".toList })))).messages.getLast?).map
      (fun m => m.content.length) =
      some ((AIChat.runActs [StreamChat.Act.chunk ("abc".toList), StreamChat.Act.tick,
        StreamChat.Act.tick]
      (AIChat.handleStart none (AIChat.streamSetup 2 (AIChat.handleSendEntry 1 2
        { AIChat.initStateA with input := "hi".toList })))).displayedLength) := by
  have h := c4_displayed_invariant { AIChat.initStateA with input := "hi".toList } 1 2 none
    (by decide) (by decide)
    [StreamChat.Act.chunk ("abc".toList), StreamChat.Act.tick, StreamChat.Act.tick]
  obtain ⟨m, hm, -, -, hdl, -⟩ := h
  refine ⟨by decide, ?_⟩
  rw [hm, hdl]
  simp

/-! ## C10 — streaming-path mutations only touch the last message -/

theorem framePre_refl (s : StreamChat.ChatState) : StreamChat.framePre s s :=
  ⟨rfl, fun _ _ => rfl⟩

theorem framePre_trans (a b c : StreamChat.ChatState)
    (h1 : StreamChat.framePre a b) (h2 : StreamChat.framePre b c) :
    StreamChat.framePre a c := by
  obtain ⟨l1, e1⟩ := h1
  obtain ⟨l2, e2⟩ := h2
  exact ⟨l2.trans l1, fun i h => (e2 i (by rw [l1]; exact h)).trans (e1 i h)⟩

theorem framePre_of_messages_eq (s s' : StreamChat.ChatState)
    (h : s'.messages = s.messages) : StreamChat.framePre s s' :=
  ⟨by rw [h], fun i _ => by rw [h]⟩

theorem framePre_of_updateLast (s s' : StreamChat.ChatState)
    (f : StreamChat.Message → StreamChat.Message)
    (h : s'.messages = updateLast f s.messages) : StreamChat.framePre s s' :=
  ⟨by rw [h, updateLast_length], fun i hi => by rw [h, updateLast_get_frame f _ i hi]⟩

theorem tick_framePre (s : StreamChat.ChatState) :
    StreamChat.framePre s (StreamChat.tick s) := by
  unfold StreamChat.tick
  split
  · exact framePre_of_updateLast s _ _ rfl
  · split
    · exact framePre_of_messages_eq s _ rfl
    · exact framePre_refl s

theorem ticksN_framePre (n : Nat) :
    ∀ s : StreamChat.ChatState, StreamChat.framePre s (StreamChat.ticksN n s) := by
  induction n with
  | zero => exact fun s => framePre_refl s
  | succ n ih =>
    intro s
    exact framePre_trans s (StreamChat.tick s) _ (tick_framePre s) (ih (StreamChat.tick s))

theorem successFinish_framePre (s : StreamChat.ChatState) :
    StreamChat.framePre s (StreamChat.successFinish s) :=
  framePre_of_updateLast s _ _ rfl

theorem flushFinish_framePre (s : StreamChat.ChatState) :
    StreamChat.framePre s (StreamChat.flushFinish s) :=
  framePre_of_updateLast s _ _ rfl

theorem waitForBuffer_framePre :
    ∀ (fuel cc ll : Nat) (sched : List Nat) (t : StreamChat.ChatState),
      StreamChat.framePre t (StreamChat.waitForBuffer fuel cc ll sched t).1 := by
  intro fuel
  induction fuel with
  | zero =>
    intro cc ll sched t
    show StreamChat.framePre t
      (match StreamChat.pollClassify (cc + 1) ll t with
       | some r => r
       | none => t, cc + 1).1
    cases h : StreamChat.pollClassify (cc + 1) ll t with
    | some r =>
      rcases pollClassify_spec (cc + 1) ll t r h with ⟨-, hr⟩ | hr <;> rw [hr] <;>
        first
          | exact successFinish_framePre t
          | exact flushFinish_framePre t
    | none => exact framePre_refl t
  | succ fuel ih =>
    intro cc ll sched t
    cases h : StreamChat.pollClassify (cc + 1) ll t with
    | some r =>
      rw [waitForBuffer_stop fuel cc ll sched t r h]
      rcases pollClassify_spec (cc + 1) ll t r h with ⟨-, hr⟩ | hr <;> rw [hr]
      · exact successFinish_framePre t
      · exact flushFinish_framePre t
    | none =>
      rw [waitForBuffer_step fuel cc ll sched t h]
      exact framePre_trans t _ _ (ticksN_framePre (sched.headD 0) t) (ih _ _ _ _)

theorem handleChunk_framePre (c : List Char) (s : StreamChat.ChatState) :
    StreamChat.framePre s (StreamChat.handleChunk c s) := by
  unfold StreamChat.handleChunk
  by_cases hc : c.isEmpty
  · rw [if_pos hc]; exact framePre_refl s
  · rw [if_neg hc]
    by_cases hr : s.hasReceivedChunk
    · simp only [hr, if_true]
      exact framePre_of_messages_eq s _ rfl
    · simp only [hr, Bool.false_eq_true, if_false]
      exact framePre_of_updateLast s _ _ rfl

theorem handleDone_framePre (sched : List Nat) (s : StreamChat.ChatState) :
    StreamChat.framePre s (StreamChat.handleDone sched s) := by
  unfold StreamChat.handleDone
  split
  · exact flushFinish_framePre s
  · exact waitForBuffer_framePre 100 0 s.buffer.length sched s

theorem updateLast_roleGuard (f : StreamChat.Message → StreamChat.Message)
    (hf : ∀ m, m.role ≠ StreamChat.Role.assistant → f m = m)
    (ms : List StreamChat.Message) (m : StreamChat.Message)
    (hm : ms.getLast? = some m) (hr : m.role ≠ StreamChat.Role.assistant) :
    updateLast f ms = ms := by
  refine updateLast_eq_self f ms (fun m' hm' => ?_)
  rw [hm] at hm'
  exact (Option.some.inj hm') ▸ hf m hr

theorem tick_messages_nonassist (s : StreamChat.ChatState) (m : StreamChat.Message)
    (hm : s.messages.getLast? = some m) (hr : m.role ≠ StreamChat.Role.assistant) :
    (StreamChat.tick s).messages = s.messages := by
  unfold StreamChat.tick
  split
  · exact updateLast_roleGuard _ (fun m' hr' => by simp [StreamChat.drainF, hr']) _ m hm hr
  · split <;> rfl

theorem tick_messages_mismatch (s : StreamChat.ChatState) (m : StreamChat.Message)
    (mid : Nat) (hm : s.messages.getLast? = some m)
    (hid : s.currentMessageId = some mid) (hne : m.id ≠ mid) :
    (StreamChat.tick s).messages = s.messages := by
  cases hb : s.buffer with
  | nil => rw [tick_skip s mid hid hb]
  | cons c rest =>
    rw [tick_drain s mid c rest hid hb]
    exact updateLast_eq_self _ _ (fun m' hm' => by
      rw [hm] at hm'
      rw [← Option.some.inj hm']
      simp [StreamChat.drainF, hne])

theorem successFinish_messages_nonassist (s : StreamChat.ChatState)
    (m : StreamChat.Message)
    (hm : s.messages.getLast? = some m) (hr : m.role ≠ StreamChat.Role.assistant) :
    (StreamChat.successFinish s).messages = s.messages :=
  updateLast_roleGuard _ (fun m' hr' => by simp [StreamChat.stopStreamF, hr']) _ m hm hr

theorem flushFinish_messages_nonassist (s : StreamChat.ChatState)
    (m : StreamChat.Message)
    (hm : s.messages.getLast? = some m) (hr : m.role ≠ StreamChat.Role.assistant) :
    (StreamChat.flushFinish s).messages = s.messages :=
  updateLast_roleGuard _ (fun m' hr' => by simp [StreamChat.flushF, hr']) _ m hm hr

theorem ticksN_messages_nonassist (m : StreamChat.Message)
    (hr : m.role ≠ StreamChat.Role.assistant) :
    ∀ (n : Nat) (t : StreamChat.ChatState), t.messages.getLast? = some m →
      (StreamChat.ticksN n t).messages = t.messages := by
  intro n
  induction n with
  | zero => intro t _; rfl
  | succ n ih =>
    intro t hm
    have h1 : (StreamChat.tick t).messages = t.messages := tick_messages_nonassist t m hm hr
    show (StreamChat.ticksN n (StreamChat.tick t)).messages = t.messages
    rw [ih (StreamChat.tick t) (by rw [h1]; exact hm), h1]

theorem waitForBuffer_messages_nonassist (m : StreamChat.Message)
    (hr : m.role ≠ StreamChat.Role.assistant) :
    ∀ (fuel cc ll : Nat) (sched : List Nat) (t : StreamChat.ChatState),
      t.messages.getLast? = some m →
      (StreamChat.waitForBuffer fuel cc ll sched t).1.messages = t.messages := by
  intro fuel
  induction fuel with
  | zero =>
    intro cc ll sched t hm
    show (match StreamChat.pollClassify (cc + 1) ll t with
       | some r => r
       | none => t, cc + 1).1.messages = t.messages
    cases h : StreamChat.pollClassify (cc + 1) ll t with
    | some r =>
      rcases pollClassify_spec (cc + 1) ll t r h with ⟨-, hr2⟩ | hr2 <;> rw [hr2]
      · exact successFinish_messages_nonassist t m hm hr
      · exact flushFinish_messages_nonassist t m hm hr
    | none => rfl
  | succ fuel ih =>
    intro cc ll sched t hm
    cases h : StreamChat.pollClassify (cc + 1) ll t with
    | some r =>
      rw [waitForBuffer_stop fuel cc ll sched t r h]
      rcases pollClassify_spec (cc + 1) ll t r h with ⟨-, hr2⟩ | hr2 <;> rw [hr2]
      · exact successFinish_messages_nonassist t m hm hr
      · exact flushFinish_messages_nonassist t m hm hr
    | none =>
      rw [waitForBuffer_step fuel cc ll sched t h]
      have ht := ticksN_messages_nonassist m hr (sched.headD 0) t hm
      rw [ih _ _ _ _ (by rw [ht]; exact hm), ht]

/-- Claim C10: every streaming-path mutation of the transcript — a timer
tick, the start/chunk/done/error event handlers, and cancel — preserves the
length of the message list and leaves the id, role and content of every
message except the last untouched; the last message is modified only when
its role is `assistant` (the tick additionally requires its id to match the
active message id), otherwise the whole list is unchanged. -/
theorem c10_transcript_frame (s : StreamChat.ChatState) :
    StreamChat.framePre s (StreamChat.tick s) ∧
    (∀ hint, StreamChat.framePre s (StreamChat.handleStart hint s)) ∧
    (∀ c, StreamChat.framePre s (StreamChat.handleChunk c s)) ∧
    (∀ sched, StreamChat.framePre s (StreamChat.handleDone sched s)) ∧
    (∀ e, StreamChat.framePre s (StreamChat.handleError e s)) ∧
    StreamChat.framePre s (StreamChat.handleCancel s) ∧
    (∀ m, s.messages.getLast? = some m → m.role ≠ StreamChat.Role.assistant →
      (StreamChat.tick s).messages = s.messages ∧
      (∀ hint, (StreamChat.handleStart hint s).messages = s.messages) ∧
      (∀ c, (StreamChat.handleChunk c s).messages = s.messages) ∧
      (∀ sched, (StreamChat.handleDone sched s).messages = s.messages) ∧
      (∀ e, (StreamChat.handleError e s).messages = s.messages) ∧
      (StreamChat.handleCancel s).messages = s.messages) ∧
    (∀ m mid, s.messages.getLast? = some m → s.currentMessageId = some mid →
      m.id ≠ mid → (StreamChat.tick s).messages = s.messages) := by
  refine ⟨tick_framePre s,
    fun hint => framePre_of_updateLast s _ _ rfl,
    fun c => handleChunk_framePre c s,
    fun sched => handleDone_framePre sched s,
    fun e => framePre_of_updateLast s _ _ rfl,
    ?_, ?_, fun m mid hm hid hne => tick_messages_mismatch s m mid hm hid hne⟩
  · unfold StreamChat.handleCancel
    split
    · exact framePre_of_updateLast s _ _ rfl
    · exact framePre_refl s
  · intro m hm hr
    have hstart : ∀ hint, (StreamChat.handleStart hint s).messages = s.messages :=
      fun hint => updateLast_roleGuard _
        (fun m' hr' => by simp [StreamChat.setContentF, hr']) _ m hm hr
    have hchunk : ∀ c, (StreamChat.handleChunk c s).messages = s.messages := by
      intro c
      unfold StreamChat.handleChunk
      by_cases hc : c.isEmpty
      · rw [if_pos hc]
      · rw [if_neg hc]
        by_cases hrc : s.hasReceivedChunk
        · simp only [hrc, if_true]
        · simp only [hrc, Bool.false_eq_true, if_false]
          exact updateLast_roleGuard _
            (fun m' hr' => by simp [StreamChat.setContentF, hr']) _ m hm hr
    have hdone : ∀ sched, (StreamChat.handleDone sched s).messages = s.messages := by
      intro sched
      unfold StreamChat.handleDone
      split
      · exact flushFinish_messages_nonassist s m hm hr
      · exact waitForBuffer_messages_nonassist m hr 100 0 s.buffer.length sched s hm
    have herr : ∀ e, (StreamChat.handleError e s).messages = s.messages :=
      fun e => updateLast_roleGuard _
        (fun m' hr' => by simp [StreamChat.stopStreamF, hr']) _ m hm hr
    have hcancel : (StreamChat.handleCancel s).messages = s.messages := by
      unfold StreamChat.handleCancel
      split
      · exact updateLast_roleGuard _
          (fun m' hr' => by simp [StreamChat.stopStreamF, hr']) _ m hm hr
      · rfl
    exact ⟨tick_messages_nonassist s m hm hr, hstart, hchunk, hdone, herr, hcancel⟩

/-- Witness for C10 at the concrete mid-turn state: a tick and a cancel keep
the length and the first (user) message intact. -/
theorem c10_transcript_frame_witness :
    (StreamChat.tick StreamChat.midTurnEx).messages.length =
      StreamChat.midTurnEx.messages.length ∧
    (StreamChat.tick StreamChat.midTurnEx).messages[0]? =
      StreamChat.midTurnEx.messages[0]? ∧
    (StreamChat.handleCancel StreamChat.midTurnEx).messages[0]? =
      StreamChat.midTurnEx.messages[0]? := by
  have h := c10_transcript_frame StreamChat.midTurnEx
  exact ⟨h.1.1, h.1.2 0 (by decide), (h.2.2.2.2.2.1).2 0 (by decide)⟩
